import Mathlib

/-!
Verification development for the cw-oracle-hub contract.

Shallow embedding of src/contract.rs (and the state/msg modules it uses) into
Lean 4.  Machine integers are modelled as Nat; Uint128 arithmetic is checked in
the source (panics on overflow), which we model by Option/Except results.
Storage maps are modelled as association lists; storage iteration order
(ascending by key) is irrelevant to every property below because the only
consumer, the median, is permutation-invariant, so we keep insertion order.
-/

namespace OracleHub

abbrev Addr := String

/-- Uint128 overflow limit: additions at or above this panic in the source. -/
def U128_LIMIT : Nat := 2 ^ 128

/-! ## cw_utils: Expiration and Duration -/

inductive Expiration
  | atHeight (h : Nat)
  | atTime (t : Nat)
  | never
  deriving DecidableEq, Repr

/-- Host block info: `height` in blocks, `time` in nanoseconds. -/
structure BlockInfo where
  height : Nat
  time : Nat
  deriving DecidableEq, Repr

/-- seconds() of a nanosecond Timestamp. -/
def BlockInfo.time_seconds (b : BlockInfo) : Nat := b.time / 1000000000

inductive Duration
  | height (h : Nat)
  | time (secs : Nat)
  deriving DecidableEq, Repr

/-- cw_utils `Duration::after`: absolute expiration one period after a block. -/
def Duration.after (d : Duration) (b : BlockInfo) : Expiration :=
  match d with
  | .height h => .atHeight (b.height + h)
  | .time s => .atTime (b.time + s * 1000000000)

def Expiration.is_expired (e : Expiration) (b : BlockInfo) : Bool :=
  match e with
  | .atHeight h => h ≤ b.height
  | .atTime t => t ≤ b.time
  | .never => false

/-- cw_utils `PartialOrd for Expiration`: same-unit ends compare numerically,
`Never` is above everything, mixed height/time ends are incomparable. -/
def Expiration.partial_cmp : Expiration → Expiration → Option Ordering
  | .atHeight a, .atHeight b => some (compare a b)
  | .atTime a, .atTime b => some (compare a b)
  | .never, .never => some .eq
  | .never, _ => some .gt
  | _, .never => some .lt
  | _, _ => none

/-! ## cosmwasm Decimal and cw_utils Threshold -/

/-- cosmwasm `Decimal`: fixed point with 18 fractional digits, stored as
atomic units. -/
structure Decimal where
  atomics : Nat
  deriving DecidableEq, Repr

def DECIMAL_FRACTIONAL : Nat := 10 ^ 18

inductive Threshold
  | absolute_count (weight : Nat)
  | absolute_percentage (percentage : Decimal)
  | threshold_quorum (threshold : Decimal) (quorum : Decimal)
  deriving DecidableEq, Repr

/-- cw3 `votes_needed`: ceil(weight * percentage), computed in fixed point
with a 10^9 precision factor, as in the cw3 package. -/
def votes_needed (weight : Nat) (percentage : Decimal) : Nat :=
  let precision_factor := 10 ^ 9
  let applied := percentage.atomics * (precision_factor * weight) / DECIMAL_FRACTIONAL
  (applied + precision_factor - 1) / precision_factor

/-! ## cw3: Status, Votes, Proposal -/

inductive Status
  | pending
  | open
  | rejected
  | passed
  | executed
  deriving DecidableEq, Repr

inductive VoteOption
  | yes
  | no
  | abstain
  | veto
  deriving DecidableEq, Repr

structure Votes where
  yes : Nat
  no : Nat
  abstain : Nat
  veto : Nat
  deriving DecidableEq, Repr

/-- cw3 `Votes::yes(init_weight)`. -/
def Votes.yesVotes (w : Nat) : Votes := ⟨w, 0, 0, 0⟩

def Votes.total (v : Votes) : Nat := v.yes + v.no + v.abstain + v.veto

def Votes.add_vote (v : Votes) (o : VoteOption) (w : Nat) : Votes :=
  match o with
  | .yes => { v with yes := v.yes + w }
  | .no => { v with no := v.no + w }
  | .abstain => { v with abstain := v.abstain + w }
  | .veto => { v with veto := v.veto + w }

/-- cw3 deposit denomination: native coin or cw20 token. -/
inductive Denom
  | native (d : String)
  | cw20 (a : Addr)
  deriving DecidableEq, Repr

structure DepositInfo where
  amount : Nat
  denom : Denom
  refund_failed_proposals : Bool
  deriving DecidableEq, Repr

structure Proposal where
  title : String
  description : String
  start_height : Nat
  expires : Expiration
  status : Status
  threshold : Threshold
  total_weight : Nat
  votes : Votes
  proposer : Addr
  deposit : Option DepositInfo
  deriving DecidableEq, Repr

/-- cw3 `Proposal::is_passed`. -/
def Proposal.is_passed (p : Proposal) (b : BlockInfo) : Bool :=
  match p.threshold with
  | .absolute_count weight => weight ≤ p.votes.yes
  | .absolute_percentage percentage =>
      votes_needed (p.total_weight - p.votes.abstain) percentage ≤ p.votes.yes
  | .threshold_quorum threshold quorum =>
      if p.votes.total < votes_needed p.total_weight quorum then false
      else if p.expires.is_expired b then
        votes_needed (p.votes.total - p.votes.abstain) threshold ≤ p.votes.yes
      else
        votes_needed (p.total_weight - p.votes.abstain) threshold ≤ p.votes.yes

/-- cw3 `Proposal::current_status`: an Open proposal becomes Passed when the
threshold is met, else Rejected once expired; other statuses are sticky. -/
def Proposal.current_status (p : Proposal) (b : BlockInfo) : Status :=
  let s1 := if p.status = .open ∧ p.is_passed b then Status.passed else p.status
  if s1 = .open ∧ p.expires.is_expired b then Status.rejected else s1

def Proposal.update_status (p : Proposal) (b : BlockInfo) : Proposal :=
  { p with status := p.current_status b }

/-! ## The median (src/contract.rs, calculate_median_price)

The source sorts the Uint128 vector ascending, takes `ind = len >> 1`; for an
even length it returns `(prices[ind - 1] + prices[ind]) >> 1` and otherwise
`prices[ind]`.  On the empty vector the even branch's index accesses panic,
and the Uint128 addition panics when the two middle elements sum to 2^128 or
more; both panics are modelled as `none`. -/
def calculate_median_price (prices : List Nat) : Option Nat :=
  let sorted := List.insertionSort (· ≤ ·) prices
  let l := sorted.length
  let ind := l / 2
  if l = ind * 2 then
    match sorted.get? (ind - 1), sorted.get? ind with
    | some a, some b => if a + b < U128_LIMIT then some ((a + b) / 2) else none
    | _, _ => none
  else
    sorted.get? ind

example : calculate_median_price [11000000, 11000000, 11100000] = some 11000000 := by decide
example : calculate_median_price [10, 20] = some 15 := by decide
example : calculate_median_price [10, 21] = some 15 := by decide
example : calculate_median_price [] = none := by decide

/-! ## Vote data and storage records -/

/-- src/msg.rs `VoteData = Map<String, Uint128>`: a keyed set of submitted
prices, modelled as an association list. -/
abbrev VoteData := List (String × Nat)

/-- `data[&key]` lookup of the BTreeMap (panics when absent; callers handle
the `none` case accordingly). -/
def VoteData.get (d : VoteData) (k : String) : Option Nat :=
  (d.find? (fun p => p.1 = k)).map (·.2)

/-- Modelled from the spec: the `Data` record stored per ballot (weight plus
the keyed prices); the state module shipped with the sources is a stale
single-key variant, while src/contract.rs stores `Data { weight, data }`. -/
structure Data where
  weight : Nat
  data : VoteData
  deriving DecidableEq, Repr

/-- Modelled from the spec: the `Config` fields used by src/contract.rs
(owner, threshold, max submitting period, group address, optional deposit,
hook contracts, price keys); the shipped state module predates the
multi-key variant. -/
structure Config where
  owner : Addr
  threshold : Threshold
  max_submitting_period : Duration
  group_addr : Addr
  proposal_deposit : Option DepositInfo
  hook_contracts : List Addr
  price_keys : List String
  deriving DecidableEq, Repr

/-- Modelled from the spec: `Config::verify_data` — "submitted value must
match the configured key-schema exactly (multi-key variant: same key set, no
missing/extra keys)". -/
def Config.verify_data (cfg : Config) (data : VoteData) : Bool :=
  cfg.price_keys.all (fun k => (VoteData.get data k).isSome) &&
    data.all (fun p => cfg.price_keys.contains p.1)

/-- Lookup in an association-list model of a storage map. -/
def assocGet {κ ν : Type} [DecidableEq κ] (l : List (κ × ν)) (k : κ) : Option ν :=
  (l.find? (fun e => e.1 = k)).map (·.2)

/-- `save` in an association-list model of a storage map: replace the entry
in place when the key is present, append otherwise. -/
def assocSet {κ ν : Type} [DecidableEq κ] (l : List (κ × ν)) (k : κ) (v : ν) :
    List (κ × ν) :=
  if l.any (fun e => e.1 = k) then
    l.map (fun e => if e.1 = k then (k, v) else e)
  else
    l ++ [(k, v)]

/-- The persisted contract state: CONFIG, PROPOSAL_COUNT, PROPOSALS and
BALLOTS, the maps as association lists. -/
structure ContractState where
  config : Config
  proposal_count : Nat
  proposals : List (Nat × Proposal)
  ballots : List ((Nat × Addr) × Data)
  deriving DecidableEq, Repr

def ContractState.getProposal (s : ContractState) (id : Nat) : Option Proposal :=
  assocGet s.proposals id

def ContractState.saveProposal (s : ContractState) (id : Nat) (p : Proposal) :
    ContractState :=
  { s with proposals := assocSet s.proposals id p }

def ContractState.getBallot (s : ContractState) (id : Nat) (a : Addr) : Option Data :=
  assocGet s.ballots (id, a)

def ContractState.saveBallot (s : ContractState) (id : Nat) (a : Addr) (d : Data) :
    ContractState :=
  { s with ballots := assocSet s.ballots (id, a) d }

/-- `BALLOTS.prefix(id).range(...)`: every ballot stored under proposal `id`.
Storage iterates ascending by voter address; since the sole consumer (the
median) is permutation-invariant we keep insertion order. -/
def ContractState.ballotsFor (s : ContractState) (id : Nat) : List (Addr × Data) :=
  (s.ballots.filter (fun e => e.1.1 = id)).map (fun e => (e.1.2, e.2))

/-- Modelled from the spec: `last_id` reads the persisted proposal counter
(0 when none); referenced by src/contract.rs but absent from the shipped
state module.  Spec: the counter is a persisted monotonic singleton,
incremented exactly once per successful Propose. -/
def last_id (s : ContractState) : Nat := s.proposal_count

/-! ## External group contract (membership source)

The group registry answers weight queries, either at a historical snapshot
height (`member_at_height`, used by Vote) or against the current roster
(used by Propose and for `total_weight`).  The legacy dual-path lookup in
`is_member` (old canonical-address layout, then new layout) is a pure
encoding shim and collapses to one roster lookup. -/
structure Group where
  members_at : Nat → List (Addr × Nat)
  current : List (Addr × Nat)

def Group.weight_at (g : Group) (h : Nat) (a : Addr) : Option Nat :=
  ((g.members_at h).find? (fun m => m.1 = a)).map (·.2)

/-- src/contract.rs `is_member` (height `None`): current-roster weight. -/
def Group.weight_now (g : Group) (a : Addr) : Option Nat :=
  (g.current.find? (fun m => m.1 = a)).map (·.2)

/-- cw4 `total_weight`: total of the current roster. -/
def Group.total_weight (g : Group) : Nat := (g.current.map (·.2)).sum

/-- cw4 `is_voting_member`: membership at the snapshot height, reported only
when the weight is at least 1. -/
def Group.is_voting_member (g : Group) (a : Addr) (h : Nat) : Option Nat :=
  match g.weight_at h a with
  | some w => if 1 ≤ w then some w else none
  | none => none

/-! ## Errors, messages, environment -/

inductive ContractError
  | Std
  | ThresholdErr
  | InvalidGroup
  | Unauthorized
  | NotOpen
  | Expired
  | NotExpired
  | WrongExpiration
  | WrongVoteData
  | AlreadyVoted
  | WrongCloseStatus
  | CanNotPropose
  | Payment
  | Deposit
  deriving DecidableEq, Repr

/-- A call outcome that is not a clean contract error: the two panic sites of
the source (a BTreeMap index on a missing price key during aggregation, and
the median's empty-input index / Uint128 overflow). -/
inductive VmErr
  | contract (e : ContractError)
  | missingKey (k : String)
  | medianFail
  deriving DecidableEq, Repr

/-- The outbound instructions the contract emits. -/
inductive CosmosMsg
  | takeDeposit (sender : Addr)
  | returnDeposit (recipient : Addr)
  | appendPrice (hook : Addr) (key : String) (price : Nat) (timestamp : Nat)
  deriving DecidableEq, Repr

structure Env where
  block : BlockInfo
  contract_addr : Addr
  deriving DecidableEq, Repr

/-- cw3 `DepositInfo::check_native_deposit_paid`: for a native-denominated
fee the attached funds must cover it; token fees are collected separately. -/
def DepositInfo.check_native_deposit_paid (d : DepositInfo)
    (funds : List (String × Nat)) : Bool :=
  match d.denom with
  | .native den => funds.any (fun c => c.1 = den && d.amount ≤ c.2)
  | .cw20 _ => true

/-- cw3 `DepositInfo::get_take_deposit_messages`: a transfer-in instruction
for token fees, nothing for natively attached funds. -/
def DepositInfo.get_take_deposit_messages (d : DepositInfo) (sender : Addr) :
    List CosmosMsg :=
  match d.denom with
  | .cw20 _ => [CosmosMsg.takeDeposit sender]
  | .native _ => []

/-- cw3 `DepositInfo::get_return_deposit_message`. -/
def DepositInfo.get_return_deposit_message (_d : DepositInfo) (recipient : Addr) :
    CosmosMsg :=
  CosmosMsg.returnDeposit recipient

/-! ## Entry points (src/contract.rs) -/

/-- `assert_last_proposal_has_done`: the most recent proposal, if any, must
recompute to Executed or Rejected. -/
def assert_last_proposal_has_done (env : Env) (s : ContractState) :
    Except VmErr Unit :=
  let last_prop_id := last_id s
  if last_prop_id = 0 then Except.ok ()
  else
    match s.getProposal last_prop_id with
    | none => Except.error (.contract .Std)
    | some prop =>
      let prop := prop.update_status env.block
      match prop.status with
      | .executed => Except.ok ()
      | .rejected => Except.ok ()
      | _ => Except.error (.contract .CanNotPropose)

/-- `execute_propose`.  `funds` are the native coins attached to the call. -/
def execute_propose (g : Group) (env : Env) (s : ContractState) (sender : Addr)
    (funds : List (String × Nat)) (data : VoteData) (latest : Option Expiration) :
    Except VmErr (ContractState × List CosmosMsg) :=
  match assert_last_proposal_has_done env s with
  | .error e => Except.error e
  | .ok () =>
    let cfg := s.config
    if !cfg.verify_data data then Except.error (.contract .WrongVoteData)
    else if !(match cfg.proposal_deposit with
              | some dep => dep.check_native_deposit_paid funds
              | none => true) then Except.error (.contract .Deposit)
    else
      match g.weight_now sender with
      | none => Except.error (.contract .Unauthorized)
      | some vote_power =>
        let max_expires := cfg.max_submitting_period.after env.block
        let requested := latest.getD max_expires
        match requested.partial_cmp max_expires with
        | none => Except.error (.contract .WrongExpiration)
        | some c =>
          let expires := if c = .gt then max_expires else requested
          let take_deposit_msg :=
            match cfg.proposal_deposit with
            | some dep => dep.get_take_deposit_messages sender
            | none => []
          let prop : Proposal :=
            { title := ""
              description := ""
              start_height := env.block.height
              expires := expires
              status := .open
              votes := Votes.yesVotes vote_power
              threshold := cfg.threshold
              total_weight := g.total_weight
              proposer := sender
              deposit := cfg.proposal_deposit }
          let prop := prop.update_status env.block
          let id := s.proposal_count + 1
          let s := { s with proposal_count := id }
          let s := s.saveProposal id prop
          let s := s.saveBallot id sender ⟨vote_power, data⟩
          Except.ok (s, take_deposit_msg)

/-- The per-key price extraction of the eager-execution branch:
`data_list.iter().map(|data| data[&price_key])` — the BTreeMap index panics
when a stored ballot lacks the key. -/
def extract_prices (data_list : List VoteData) (k : String) :
    Except VmErr (List Nat) :=
  match data_list.mapM (fun d => VoteData.get d k) with
  | some prices => Except.ok prices
  | none => Except.error (.missingKey k)

/-- The dispatch-building loop of the eager-execution branch: for every
configured price key take that key's submitted prices, compute the median,
and emit one append-price call per hook contract. -/
def build_dispatch (cfg : Config) (data_list : List VoteData) (ts : Nat) :
    Except VmErr (List CosmosMsg) :=
  match cfg.price_keys.mapM (fun price_key =>
    match extract_prices data_list price_key with
    | .error e => Except.error e
    | .ok prices =>
      match calculate_median_price prices with
      | some median_price =>
        Except.ok (cfg.hook_contracts.map (fun addr =>
          CosmosMsg.appendPrice addr price_key median_price ts))
      | none => Except.error VmErr.medianFail) with
  | .error e => Except.error e
  | .ok groups => Except.ok groups.flatten

/-- `execute_vote`. -/
def execute_vote (g : Group) (env : Env) (s : ContractState) (sender : Addr)
    (proposal_id : Nat) (data : VoteData) :
    Except VmErr (ContractState × List CosmosMsg) :=
  let cfg := s.config
  if !cfg.verify_data data then Except.error (.contract .WrongVoteData)
  else
    match s.getProposal proposal_id with
    | none => Except.error (.contract .Std)
    | some prop =>
      if !(prop.status = .open ∨ prop.status = .passed ∨ prop.status = .rejected : Bool)
      then Except.error (.contract .NotOpen)
      else if prop.expires.is_expired env.block then Except.error (.contract .Expired)
      else
        match g.is_voting_member sender prop.start_height with
        | none => Except.error (.contract .Unauthorized)
        | some vote_power =>
          match s.getBallot proposal_id sender with
          | some _ => Except.error (.contract .AlreadyVoted)
          | none =>
            let s := s.saveBallot proposal_id sender ⟨vote_power, data⟩
            let prop := { prop with votes := prop.votes.add_vote .yes vote_power }
            let prop := prop.update_status env.block
            if prop.status = .passed then
              let data_list := (s.ballotsFor proposal_id).map (·.2.data)
              match build_dispatch cfg data_list env.block.time_seconds with
              | .error e => Except.error e
              | .ok msgs =>
                let prop := { prop with status := .executed }
                let deposit_msgs :=
                  match prop.deposit with
                  | some dep => [dep.get_return_deposit_message prop.proposer]
                  | none => []
                let s := s.saveProposal proposal_id prop
                Except.ok (s, deposit_msgs ++ msgs)
            else
              let s := s.saveProposal proposal_id prop
              Except.ok (s, [])

/-- `execute_close`. -/
def execute_close (env : Env) (s : ContractState) (proposal_id : Nat) :
    Except VmErr (ContractState × List CosmosMsg) :=
  match s.getProposal proposal_id with
  | none => Except.error (.contract .Std)
  | some prop =>
    if prop.status = .executed ∨ prop.status = .rejected ∨ prop.status = .passed
    then Except.error (.contract .WrongCloseStatus)
    else if prop.current_status env.block = .passed
    then Except.error (.contract .WrongCloseStatus)
    else if !prop.expires.is_expired env.block
    then Except.error (.contract .NotExpired)
    else
      let prop := { prop with status := .rejected }
      let s := s.saveProposal proposal_id prop
      let msgs :=
        match prop.deposit with
        | some dep =>
          if dep.refund_failed_proposals
          then [dep.get_return_deposit_message prop.proposer]
          else []
        | none => []
      Except.ok (s, msgs)

/-- `execute_update_config`: owner-gated partial update. -/
def execute_update_config (s : ContractState) (sender : Addr)
    (owner : Option Addr) (threshold : Option Threshold)
    (max_submitting_period : Option Duration)
    (price_keys : Option (List String)) (hook_contracts : Option (List Addr)) :
    Except VmErr (ContractState × List CosmosMsg) :=
  let cfg := s.config
  if cfg.owner ≠ sender then Except.error (.contract .Unauthorized)
  else
    let cfg :=
      { cfg with
        owner := owner.getD cfg.owner
        threshold := threshold.getD cfg.threshold
        max_submitting_period := max_submitting_period.getD cfg.max_submitting_period
        price_keys := price_keys.getD cfg.price_keys
        hook_contracts := hook_contracts.getD cfg.hook_contracts }
    Except.ok ({ s with config := cfg }, [])

/-- Host semantics of a failed call: the whole state mutation is reverted,
so a call that returns an error leaves the persisted state as it was. -/
def vote_step (g : Group) (env : Env) (s : ContractState) (sender : Addr)
    (proposal_id : Nat) (data : VoteData) : ContractState :=
  match execute_vote g env s sender proposal_id data with
  | .ok (s', _) => s'
  | .error _ => s

theorem get?_eq_some_getD (l : List Nat) (n : Nat) (h : n < l.length) :
    l.get? n = some (l.getD n 0) := by
  simp [List.get?_eq_getElem?, List.getD_eq_getElem?_getD, List.getElem?_eq_getElem h]

theorem getD_mem (l : List Nat) (n : Nat) (h : n < l.length) : l.getD n 0 ∈ l := by
  rw [List.getD_eq_getElem?_getD, List.getElem?_eq_getElem h]
  exact List.getElem_mem h

/-- Characterization of the median on non-empty inputs. -/
theorem median_characterization (prices : List Nat) (hne : prices ≠ []) :
    calculate_median_price prices =
      (if prices.length % 2 = 1 then
        some ((List.insertionSort (· ≤ ·) prices).getD (prices.length / 2) 0)
      else if (List.insertionSort (· ≤ ·) prices).getD (prices.length / 2 - 1) 0
            + (List.insertionSort (· ≤ ·) prices).getD (prices.length / 2) 0 < U128_LIMIT
        then
        some (((List.insertionSort (· ≤ ·) prices).getD (prices.length / 2 - 1) 0
            + (List.insertionSort (· ≤ ·) prices).getD (prices.length / 2) 0) / 2)
        else none) := by
  have hlen : (List.insertionSort (· ≤ ·) prices).length = prices.length :=
    List.length_insertionSort _ _
  have hl : 0 < prices.length := List.length_pos.mpr hne
  unfold calculate_median_price
  rcases Nat.even_or_odd prices.length with he | ho
  · obtain ⟨k, hk⟩ := he
    have hcond : (List.insertionSort (· ≤ ·) prices).length
        = (List.insertionSort (· ≤ ·) prices).length / 2 * 2 := by omega
    rw [if_pos hcond]
    have h1 : (List.insertionSort (· ≤ ·) prices).length / 2 - 1
        < (List.insertionSort (· ≤ ·) prices).length := by omega
    have h2 : (List.insertionSort (· ≤ ·) prices).length / 2
        < (List.insertionSort (· ≤ ·) prices).length := by omega
    rw [get?_eq_some_getD _ _ h1, get?_eq_some_getD _ _ h2]
    have hmod : ¬ prices.length % 2 = 1 := by omega
    rw [if_neg hmod]
    rw [hlen]
  · obtain ⟨k, hk⟩ := ho
    have hcond : ¬ (List.insertionSort (· ≤ ·) prices).length
        = (List.insertionSort (· ≤ ·) prices).length / 2 * 2 := by omega
    rw [if_neg hcond]
    have hmod : prices.length % 2 = 1 := by omega
    rw [if_pos hmod]
    have h2 : (List.insertionSort (· ≤ ·) prices).length / 2
        < (List.insertionSort (· ≤ ·) prices).length := by omega
    rw [get?_eq_some_getD _ _ h2, hlen]

/-- C1 (counterexample): on the even-count list [2^127, 2^127] the claim
asserts the truncating average 2^127, but the checked Uint128 addition of the
two middle elements overflows and the call panics instead. -/
theorem claim_C1_counterexample :
    calculate_median_price [2 ^ 127, 2 ^ 127] ≠ some ((2 ^ 127 + 2 ^ 127) / 2) := by
  decide

/-- C1 (amended): for every non-empty price list whose two middle sorted
elements sum below 2^128 when the count is even, calculate_median_price sorts
ascending and returns the element at index n/2 for odd n and the truncating
average (a[n/2-1] + a[n/2]) / 2 for even n. -/
theorem claim_C1 (prices : List Nat) (hne : prices ≠ [])
    (hsum : prices.length % 2 = 0 →
      (List.insertionSort (· ≤ ·) prices).getD (prices.length / 2 - 1) 0
        + (List.insertionSort (· ≤ ·) prices).getD (prices.length / 2) 0 < U128_LIMIT) :
    List.Sorted (· ≤ ·) (List.insertionSort (· ≤ ·) prices) ∧
    (List.insertionSort (· ≤ ·) prices).Perm prices ∧
    calculate_median_price prices =
      some (if prices.length % 2 = 1 then
          (List.insertionSort (· ≤ ·) prices).getD (prices.length / 2) 0
        else
          ((List.insertionSort (· ≤ ·) prices).getD (prices.length / 2 - 1) 0
            + (List.insertionSort (· ≤ ·) prices).getD (prices.length / 2) 0) / 2) := by
  refine ⟨List.sorted_insertionSort _ _, List.perm_insertionSort _ _, ?_⟩
  rw [median_characterization prices hne]
  rcases Nat.even_or_odd prices.length with he | ho
  · obtain ⟨k, hk⟩ := he
    have hmod : ¬ prices.length % 2 = 1 := by omega
    rw [if_neg hmod, if_neg hmod, if_pos (hsum (by omega))]
  · obtain ⟨k, hk⟩ := ho
    have hmod : prices.length % 2 = 1 := by omega
    rw [if_pos hmod, if_pos hmod]

/-- C1 (witness): the three example inputs of the claim. -/
theorem claim_C1_witness :
    calculate_median_price [11000000, 11000000, 11100000] = some 11000000 ∧
    calculate_median_price [10, 20] = some 15 ∧
    calculate_median_price [10, 21] = some 15 := by
  refine ⟨?_, ?_, ?_⟩
  · rw [(claim_C1 [11000000, 11000000, 11100000] (by decide) (by decide)).2.2]; decide
  · rw [(claim_C1 [10, 20] (by decide) (by decide)).2.2]; decide
  · rw [(claim_C1 [10, 21] (by decide) (by decide)).2.2]; decide

/-- C9: calculate_median_price is total only under preconditions — it fails
on the empty list (out-of-bounds index after the usize underflow) and on an
even-count list whose two middle elements sum to 2^128 or more (checked
Uint128 addition); on every non-empty list whose middle pair sums below
2^128 it returns a value. -/
theorem claim_C9 :
    calculate_median_price [] = none ∧
    (∀ prices : List Nat, prices.length % 2 = 0 →
      U128_LIMIT ≤ (List.insertionSort (· ≤ ·) prices).getD (prices.length / 2 - 1) 0
        + (List.insertionSort (· ≤ ·) prices).getD (prices.length / 2) 0 →
      calculate_median_price prices = none) ∧
    (∀ prices : List Nat, prices ≠ [] →
      (prices.length % 2 = 0 →
        (List.insertionSort (· ≤ ·) prices).getD (prices.length / 2 - 1) 0
          + (List.insertionSort (· ≤ ·) prices).getD (prices.length / 2) 0 < U128_LIMIT) →
      (calculate_median_price prices).isSome = true) := by
  refine ⟨by decide, ?_, ?_⟩
  · intro prices heven hsum
    rcases eq_or_ne prices [] with rfl | hne
    · simp [U128_LIMIT] at hsum
    · rw [median_characterization prices hne]
      have hmod : ¬ prices.length % 2 = 1 := by omega
      rw [if_neg hmod, if_neg (by omega)]
  · intro prices hne hsum
    rw [median_characterization prices hne]
    rcases Nat.even_or_odd prices.length with he | ho
    · obtain ⟨k, hk⟩ := he
      have hmod : ¬ prices.length % 2 = 1 := by omega
      rw [if_neg hmod, if_pos (hsum (by omega))]
      rfl
    · obtain ⟨k, hk⟩ := ho
      rw [if_pos (by omega)]
      rfl

/-- C9 (witness): concrete instances of the two guarded conjuncts. -/
theorem claim_C9_witness :
    calculate_median_price [2 ^ 127, 2 ^ 127] = none ∧
    (calculate_median_price [7]).isSome = true := by
  constructor
  · exact claim_C9.2.1 [2 ^ 127, 2 ^ 127] (by decide) (by decide)
  · exact claim_C9.2.2 [7] (by decide) (by decide)


/-! ## Association-list storage lemmas -/

theorem find?_map_set {κ ν : Type} [DecidableEq κ] (l : List (κ × ν)) (k : κ) (v : ν) :
    (l.map (fun e => if e.1 = k then (k, v) else e)).find? (fun e => e.1 = k)
      = if l.any (fun e => e.1 = k) then some (k, v) else none := by
  induction l with
  | nil => simp
  | cons a t ih =>
    by_cases ha : a.1 = k
    · simp only [List.map_cons, if_pos ha, List.any_cons]
      rw [List.find?_cons_of_pos _ (by simp)]
      simp [ha]
    · simp only [List.map_cons, if_neg ha, List.any_cons]
      rw [List.find?_cons_of_neg _ (by simp [ha])]
      rw [ih]
      have hd : decide (a.1 = k) = false := by simp [ha]
      simp only [hd, Bool.false_or]

theorem find?_map_set_other {κ ν : Type} [DecidableEq κ] (l : List (κ × ν))
    (k k' : κ) (v : ν) (h : k' ≠ k) :
    (l.map (fun e => if e.1 = k then (k, v) else e)).find? (fun e => e.1 = k')
      = l.find? (fun e => e.1 = k') := by
  induction l with
  | nil => simp
  | cons a t ih =>
    by_cases ha : a.1 = k
    · have ha' : ¬ (a.1 = k') := by rw [ha]; exact fun hh => h hh.symm
      simp only [List.map_cons, if_pos ha]
      rw [List.find?_cons_of_neg _ (by simp; exact fun hh => h hh.symm),
        List.find?_cons_of_neg _ (by simp [ha'])]
      exact ih
    · by_cases ha' : a.1 = k'
      · simp only [List.map_cons, if_neg ha]
        rw [List.find?_cons_of_pos _ (by simp [ha']),
          List.find?_cons_of_pos _ (by simp [ha'])]
      · simp only [List.map_cons, if_neg ha]
        rw [List.find?_cons_of_neg _ (by simp [ha']),
          List.find?_cons_of_neg _ (by simp [ha'])]
        exact ih

theorem assocGet_set_self {κ ν : Type} [DecidableEq κ] (l : List (κ × ν)) (k : κ) (v : ν) :
    assocGet (assocSet l k v) k = some v := by
  unfold assocGet assocSet
  by_cases h : l.any (fun e => e.1 = k)
  · rw [if_pos h, find?_map_set, if_pos h]
    rfl
  · rw [if_neg h, List.find?_append]
    have hnone : l.find? (fun e => e.1 = k) = none := by
      rw [List.find?_eq_none]
      intro x hx hpx
      exact h (List.any_eq_true.mpr ⟨x, hx, hpx⟩)
    rw [hnone]
    simp

theorem assocGet_set_other {κ ν : Type} [DecidableEq κ] (l : List (κ × ν))
    (k k' : κ) (v : ν) (h : k' ≠ k) :
    assocGet (assocSet l k v) k' = assocGet l k' := by
  unfold assocGet assocSet
  by_cases hh : l.any (fun e => e.1 = k)
  · rw [if_pos hh, find?_map_set_other _ _ _ _ h]
  · rw [if_neg hh, List.find?_append]
    have hone : List.find? (fun e => decide (e.1 = k')) [(k, v)] = none := by
      simp [h.symm]
    rw [hone]
    simp

theorem assocSet_of_get_none {κ ν : Type} [DecidableEq κ] (l : List (κ × ν))
    (k : κ) (v : ν) (h : assocGet l k = none) :
    assocSet l k v = l ++ [(k, v)] := by
  unfold assocGet at h
  unfold assocSet
  rw [if_neg]
  intro hany
  obtain ⟨x, hx, hpx⟩ := List.any_eq_true.mp hany
  have hfind : l.find? (fun e => e.1 = k) = none := by
    cases hfind : l.find? (fun e => e.1 = k) with
    | none => rfl
    | some y => rw [hfind] at h; simp at h
  exact List.find?_eq_none.mp hfind x hx hpx

theorem ballotsFor_saveBallot_same (s : ContractState) (pid : Nat) (a : Addr)
    (d : Data) (h : s.getBallot pid a = none) :
    (s.saveBallot pid a d).ballotsFor pid = s.ballotsFor pid ++ [(a, d)] := by
  unfold ContractState.saveBallot ContractState.ballotsFor
  rw [assocSet_of_get_none _ _ _ h]
  simp

theorem ballotsFor_saveBallot_ne (s : ContractState) (pid id : Nat) (a : Addr)
    (d : Data) (h : pid ≠ id) :
    (s.saveBallot id a d).ballotsFor pid = s.ballotsFor pid := by
  unfold ContractState.saveBallot ContractState.ballotsFor assocSet
  by_cases hh : s.ballots.any (fun e => e.1 = (id, a))
  · rw [if_pos hh]
    simp only []
    induction s.ballots with
    | nil => simp
    | cons e t ih =>
      by_cases he : e.1 = (id, a)
      · have h2 : ¬ (e.1.1 = pid) := by rw [he]; exact fun hc => h hc.symm
        simp only [List.map_cons, if_pos he, List.filter_cons]
        rw [if_neg (by simp; exact fun hc => h hc.symm), if_neg (by simp [h2])]
        exact ih
      · simp only [List.map_cons, if_neg he, List.filter_cons]
        by_cases hp : e.1.1 = pid
        · rw [if_pos (by simp [hp]), if_pos (by simp [hp])]
          simp only [List.map_cons]
          rw [ih]
        · rw [if_neg (by simp [hp]), if_neg (by simp [hp])]
          exact ih
  · rw [if_neg hh]
    rw [List.filter_append]
    have hemp : List.filter (fun e => decide (e.1.1 = pid)) [((id, a), d)] = [] := by
      simp
      exact fun hc => h hc.symm
    rw [hemp]
    simp

theorem ballotsFor_saveProposal (s : ContractState) (pid id : Nat) (p : Proposal) :
    (s.saveProposal id p).ballotsFor pid = s.ballotsFor pid := rfl

theorem getProposal_saveProposal_self (s : ContractState) (id : Nat) (p : Proposal) :
    (s.saveProposal id p).getProposal id = some p :=
  assocGet_set_self _ _ _

theorem getProposal_saveProposal_ne (s : ContractState) (id id' : Nat) (p : Proposal)
    (h : id' ≠ id) : (s.saveProposal id p).getProposal id' = s.getProposal id' :=
  assocGet_set_other _ _ _ _ h

theorem getProposal_saveBallot (s : ContractState) (pid id : Nat) (a : Addr) (d : Data) :
    (s.saveBallot id a d).getProposal pid = s.getProposal pid := rfl

theorem not_mem_ballotsFor_of_getBallot_none (s : ContractState) (pid : Nat)
    (a : Addr) (h : s.getBallot pid a = none) :
    a ∉ (s.ballotsFor pid).map (·.1) := by
  intro hmem
  simp only [ContractState.ballotsFor, List.map_map, List.mem_map] at hmem
  obtain ⟨e, he, hea⟩ := hmem
  rw [List.mem_filter] at he
  obtain ⟨hmem', hpid⟩ := he
  have hfind : s.ballots.find? (fun e => e.1 = (pid, a)) = none := by
    cases hfind : s.ballots.find? (fun e => e.1 = (pid, a)) with
    | none => rfl
    | some y =>
      unfold ContractState.getBallot assocGet at h
      rw [hfind] at h
      simp at h
  have hne := List.find?_eq_none.mp hfind e hmem'
  apply hne
  simp only [decide_eq_true_eq] at hpid ⊢
  obtain ⟨⟨k1, k2⟩, val⟩ := e
  simp_all


/-- C4: a voter who already has a stored Ballot on a proposal cannot vote
again: under the preconditions that let the call reach the ballot write (data
matches the schema, the proposal exists with a votable status and is not
expired, the caller is a voting member at the snapshot height), the call
fails with AlreadyVoted, and since errored calls are reverted whole by the
host, the stored ballot, tally and proposal record are unchanged. -/
theorem claim_C4 (g : Group) (env : Env) (s : ContractState) (sender : Addr)
    (pid : Nat) (data : VoteData) (prop : Proposal) (d : Data) (w : Nat)
    (hv : s.config.verify_data data = true)
    (hp : s.getProposal pid = some prop)
    (hst : prop.status = .open ∨ prop.status = .passed ∨ prop.status = .rejected)
    (hexp : prop.expires.is_expired env.block = false)
    (hm : g.is_voting_member sender prop.start_height = some w)
    (hb : s.getBallot pid sender = some d) :
    execute_vote g env s sender pid data
        = Except.error (.contract .AlreadyVoted) ∧
      vote_step g env s sender pid data = s ∧
      (vote_step g env s sender pid data).getBallot pid sender = some d ∧
      (vote_step g env s sender pid data).getProposal pid = some prop := by
  have hst' := eq_true hst
  have herr : execute_vote g env s sender pid data
      = Except.error (.contract .AlreadyVoted) := by
    simp only [execute_vote, hv, hp, hexp, hm, hb, hst', Bool.not_true,
      Bool.false_eq_true, if_false]
    simp
  refine ⟨herr, ?_, ?_, ?_⟩ <;> unfold vote_step <;> rw [herr]
  · exact hb
  · exact hp

/-- C4 (witness). -/
theorem claim_C4_witness :
    execute_vote ⟨fun _ => [("u", 1)], [("u", 1)]⟩ ⟨⟨100, 0⟩, "c"⟩
        ⟨⟨"o", .absolute_count 2, .height 10, "g", none, ["h1"], ["a"]⟩, 1,
          [(1, ⟨"", "", 100, .atHeight 110, .open, .absolute_count 2, 1,
            ⟨1, 0, 0, 0⟩, "u", none⟩)],
          [((1, "u"), ⟨1, [("a", 5)]⟩)]⟩
        "u" 1 [("a", 6)]
      = Except.error (.contract .AlreadyVoted) :=
  (claim_C4 ⟨fun _ => [("u", 1)], [("u", 1)]⟩ ⟨⟨100, 0⟩, "c"⟩
      ⟨⟨"o", .absolute_count 2, .height 10, "g", none, ["h1"], ["a"]⟩, 1,
        [(1, ⟨"", "", 100, .atHeight 110, .open, .absolute_count 2, 1,
          ⟨1, 0, 0, 0⟩, "u", none⟩)],
        [((1, "u"), ⟨1, [("a", 5)]⟩)]⟩
      "u" 1 [("a", 6)]
      ⟨"", "", 100, .atHeight 110, .open, .absolute_count 2, 1,
        ⟨1, 0, 0, 0⟩, "u", none⟩
      ⟨1, [("a", 5)]⟩ 1
      (by decide) (by decide) (by decide) (by decide) (by decide) (by decide)).1

/-- C5: Close fails with WrongCloseStatus whenever the stored status is
Executed, Rejected or Passed, or the freshly recomputed status is Passed;
fails with NotExpired when the proposal is not yet expired; and otherwise
marks the proposal Rejected and emits the deposit-refund instruction exactly
when the captured deposit's refund_failed_proposals flag is set. -/
theorem claim_C5 (env : Env) (s : ContractState) (pid : Nat) (prop : Proposal)
    (hp : s.getProposal pid = some prop) :
    ((prop.status = .executed ∨ prop.status = .rejected ∨ prop.status = .passed) →
      execute_close env s pid = Except.error (.contract .WrongCloseStatus)) ∧
    (prop.current_status env.block = .passed →
      execute_close env s pid = Except.error (.contract .WrongCloseStatus)) ∧
    (¬(prop.status = .executed ∨ prop.status = .rejected ∨ prop.status = .passed) →
      prop.current_status env.block ≠ .passed →
      prop.expires.is_expired env.block = false →
      execute_close env s pid = Except.error (.contract .NotExpired)) ∧
    (¬(prop.status = .executed ∨ prop.status = .rejected ∨ prop.status = .passed) →
      prop.current_status env.block ≠ .passed →
      prop.expires.is_expired env.block = true →
      execute_close env s pid
          = Except.ok (s.saveProposal pid { prop with status := .rejected },
              match prop.deposit with
              | some dep =>
                if dep.refund_failed_proposals
                then [CosmosMsg.returnDeposit prop.proposer] else []
              | none => []) ∧
        ((s.saveProposal pid { prop with status := .rejected }).getProposal pid).map
            (fun q => q.status) = some .rejected) := by
  refine ⟨?_, ?_, ?_, ?_⟩
  · intro hterm
    simp only [execute_close, hp]
    rw [if_pos hterm]
  · intro hcur
    simp only [execute_close, hp]
    by_cases hterm : prop.status = .executed ∨ prop.status = .rejected ∨ prop.status = .passed
    · rw [if_pos hterm]
    · rw [if_neg hterm, if_pos hcur]
  · intro hterm hcur hexp
    simp only [execute_close, hp]
    rw [if_neg hterm, if_neg hcur, hexp]
    simp
  · intro hterm hcur hexp
    constructor
    · simp only [execute_close, hp]
      rw [if_neg hterm, if_neg hcur, hexp]
      simp only [Bool.not_true, Bool.false_eq_true, if_false]
      cases prop.deposit with
      | none => rfl
      | some dep =>
        by_cases hr : dep.refund_failed_proposals
        · simp [DepositInfo.get_return_deposit_message, hr]
        · simp [DepositInfo.get_return_deposit_message, hr]
    · rw [getProposal_saveProposal_self]
      rfl

/-- C5 (witness): closing an expired, never-passing Open proposal whose
deposit has the refund flag set. -/
theorem claim_C5_witness :
    execute_close ⟨⟨120, 0⟩, "c"⟩
        ⟨⟨"o", .absolute_count 2, .height 10, "g", none, ["h1"], ["a"]⟩, 1,
          [(1, ⟨"", "", 100, .atHeight 110, .open, .absolute_count 2, 2,
            ⟨1, 0, 0, 0⟩, "u", some ⟨7, .native "orai", true⟩⟩)],
          [((1, "u"), ⟨1, [("a", 5)]⟩)]⟩ 1
      = Except.ok
          (ContractState.saveProposal
            ⟨⟨"o", .absolute_count 2, .height 10, "g", none, ["h1"], ["a"]⟩, 1,
              [(1, ⟨"", "", 100, .atHeight 110, .open, .absolute_count 2, 2,
                ⟨1, 0, 0, 0⟩, "u", some ⟨7, .native "orai", true⟩⟩)],
              [((1, "u"), ⟨1, [("a", 5)]⟩)]⟩ 1
            ⟨"", "", 100, .atHeight 110, .rejected, .absolute_count 2, 2,
              ⟨1, 0, 0, 0⟩, "u", some ⟨7, .native "orai", true⟩⟩,
          [CosmosMsg.returnDeposit "u"]) :=
  ((claim_C5 ⟨⟨120, 0⟩, "c"⟩
      ⟨⟨"o", .absolute_count 2, .height 10, "g", none, ["h1"], ["a"]⟩, 1,
        [(1, ⟨"", "", 100, .atHeight 110, .open, .absolute_count 2, 2,
          ⟨1, 0, 0, 0⟩, "u", some ⟨7, .native "orai", true⟩⟩)],
        [((1, "u"), ⟨1, [("a", 5)]⟩)]⟩ 1
      ⟨"", "", 100, .atHeight 110, .open, .absolute_count 2, 2,
        ⟨1, 0, 0, 0⟩, "u", some ⟨7, .native "orai", true⟩⟩
      (by decide)).2.2.2 (by decide) (by decide) (by decide)).1


theorem getBallot_saveBallot_self (s : ContractState) (id : Nat) (a : Addr) (d : Data) :
    (s.saveBallot id a d).getBallot id a = some d :=
  assocGet_set_self _ _ _

/-- Shape of a successful Propose: provided every check passes and the
requested expiration is comparable with the configured maximum, the call
allocates the next id, stores the proposal (status refreshed) with the
clamped expiration and the proposer's opening Yes-ballot, and emits the
deposit-collection instructions. -/
theorem execute_propose_ok (g : Group) (env : Env) (s : ContractState)
    (sender : Addr) (funds : List (String × Nat)) (data : VoteData)
    (latest : Option Expiration) (w : Nat) (c : Ordering)
    (hdone : assert_last_proposal_has_done env s = Except.ok ())
    (hv : s.config.verify_data data = true)
    (hdep : (match s.config.proposal_deposit with
             | some dep => dep.check_native_deposit_paid funds
             | none => true) = true)
    (hm : g.weight_now sender = some w)
    (hcmp : (latest.getD (s.config.max_submitting_period.after env.block)).partial_cmp
        (s.config.max_submitting_period.after env.block) = some c) :
    execute_propose g env s sender funds data latest =
      Except.ok
        ((({ s with proposal_count := s.proposal_count + 1 } : ContractState).saveProposal
            (s.proposal_count + 1)
            (Proposal.update_status
              { title := ""
                description := ""
                start_height := env.block.height
                expires :=
                  if c = .gt then s.config.max_submitting_period.after env.block
                  else latest.getD (s.config.max_submitting_period.after env.block)
                status := .open
                votes := Votes.yesVotes w
                threshold := s.config.threshold
                total_weight := g.total_weight
                proposer := sender
                deposit := s.config.proposal_deposit } env.block)).saveBallot
          (s.proposal_count + 1) sender ⟨w, data⟩,
        match s.config.proposal_deposit with
        | some dep => dep.get_take_deposit_messages sender
        | none => []) := by
  simp only [execute_propose, hdone, hv, hdep, hm, hcmp, Bool.not_true,
    Bool.false_eq_true, if_false]

/-- Reflexive comparison of a computed maximal expiration. -/
theorem partial_cmp_after_self (d : Duration) (b : BlockInfo) :
    (d.after b).partial_cmp (d.after b) = some .eq := by
  cases d <;> simp [Duration.after, Expiration.partial_cmp, compare_eq_iff_eq]

/-- C6: the stored expiration is min(requested latest, open time +
max_submitting_period): an omitted latest defaults to the maximum, a
requested latest above the maximum is silently clamped to the maximum, a
comparable latest not above the maximum is kept, and an incomparable latest
(mixed height/time units) fails with WrongExpiration. -/
theorem claim_C6 (g : Group) (env : Env) (s : ContractState)
    (sender : Addr) (funds : List (String × Nat)) (data : VoteData) (w : Nat)
    (hdone : assert_last_proposal_has_done env s = Except.ok ())
    (hv : s.config.verify_data data = true)
    (hdep : (match s.config.proposal_deposit with
             | some dep => dep.check_native_deposit_paid funds
             | none => true) = true)
    (hm : g.weight_now sender = some w) :
    (∃ s' msgs, execute_propose g env s sender funds data none = Except.ok (s', msgs) ∧
      (s'.getProposal (s.proposal_count + 1)).map (fun p => p.expires)
        = some (s.config.max_submitting_period.after env.block)) ∧
    (∀ l : Expiration,
      l.partial_cmp (s.config.max_submitting_period.after env.block) = some .gt →
      ∃ s' msgs, execute_propose g env s sender funds data (some l) = Except.ok (s', msgs) ∧
        (s'.getProposal (s.proposal_count + 1)).map (fun p => p.expires)
          = some (s.config.max_submitting_period.after env.block)) ∧
    (∀ (l : Expiration) (c : Ordering),
      l.partial_cmp (s.config.max_submitting_period.after env.block) = some c →
      c ≠ .gt →
      ∃ s' msgs, execute_propose g env s sender funds data (some l) = Except.ok (s', msgs) ∧
        (s'.getProposal (s.proposal_count + 1)).map (fun p => p.expires) = some l) ∧
    (∀ l : Expiration,
      l.partial_cmp (s.config.max_submitting_period.after env.block) = none →
      execute_propose g env s sender funds data (some l)
        = Except.error (.contract .WrongExpiration)) := by
  refine ⟨?_, ?_, ?_, ?_⟩
  · refine ⟨_, _, execute_propose_ok g env s sender funds data none w .eq hdone hv hdep hm
      (by simp [partial_cmp_after_self]), ?_⟩
    rw [getProposal_saveBallot, getProposal_saveProposal_self]
    simp [Proposal.update_status]
  · intro l hl
    refine ⟨_, _, execute_propose_ok g env s sender funds data (some l) w .gt hdone hv hdep hm
      (by simpa using hl), ?_⟩
    rw [getProposal_saveBallot, getProposal_saveProposal_self]
    simp [Proposal.update_status]
  · intro l c hl hc
    refine ⟨_, _, execute_propose_ok g env s sender funds data (some l) w c hdone hv hdep hm
      (by simpa using hl), ?_⟩
    rw [getProposal_saveBallot, getProposal_saveProposal_self]
    simp [Proposal.update_status, hc]
  · intro l hl
    simp only [execute_propose, hdone, hv, hdep, hm, Bool.not_true,
      Bool.false_eq_true, if_false]
    simp only [Option.getD_some] at hl ⊢
    rw [hl]

/-- C6 (witness): with a 10-block maximum opened at height 100, an omitted
latest stores height 110; a requested height 200 is clamped to 110; a
requested height 105 is kept; a time-based latest fails. -/
theorem claim_C6_witness :
    (∃ s' msgs, execute_propose ⟨fun _ => [("u", 1)], [("u", 1)]⟩ ⟨⟨100, 0⟩, "c"⟩
        ⟨⟨"o", .absolute_count 2, .height 10, "g", none, ["h1"], ["a"]⟩, 0, [], []⟩
        "u" [] [("a", 5)] none = Except.ok (s', msgs) ∧
      (s'.getProposal 1).map (fun p => p.expires) = some (.atHeight 110)) ∧
    (∃ s' msgs, execute_propose ⟨fun _ => [("u", 1)], [("u", 1)]⟩ ⟨⟨100, 0⟩, "c"⟩
        ⟨⟨"o", .absolute_count 2, .height 10, "g", none, ["h1"], ["a"]⟩, 0, [], []⟩
        "u" [] [("a", 5)] (some (.atHeight 200)) = Except.ok (s', msgs) ∧
      (s'.getProposal 1).map (fun p => p.expires) = some (.atHeight 110)) ∧
    (∃ s' msgs, execute_propose ⟨fun _ => [("u", 1)], [("u", 1)]⟩ ⟨⟨100, 0⟩, "c"⟩
        ⟨⟨"o", .absolute_count 2, .height 10, "g", none, ["h1"], ["a"]⟩, 0, [], []⟩
        "u" [] [("a", 5)] (some (.atHeight 105)) = Except.ok (s', msgs) ∧
      (s'.getProposal 1).map (fun p => p.expires) = some (.atHeight 105)) ∧
    execute_propose ⟨fun _ => [("u", 1)], [("u", 1)]⟩ ⟨⟨100, 0⟩, "c"⟩
        ⟨⟨"o", .absolute_count 2, .height 10, "g", none, ["h1"], ["a"]⟩, 0, [], []⟩
        "u" [] [("a", 5)] (some (.atTime 77))
      = Except.error (.contract .WrongExpiration) := by
  have h := claim_C6 ⟨fun _ => [("u", 1)], [("u", 1)]⟩ ⟨⟨100, 0⟩, "c"⟩
    ⟨⟨"o", .absolute_count 2, .height 10, "g", none, ["h1"], ["a"]⟩, 0, [], []⟩
    "u" [] [("a", 5)] 1 rfl (by decide) (by decide) (by decide)
  exact ⟨h.1, h.2.1 (.atHeight 200) (by decide),
    h.2.2.1 (.atHeight 105) .lt (by decide) (by decide),
    h.2.2.2 (.atTime 77) (by decide)⟩

/-- C7: Propose is gated on the most recent proposal being done — when the
counter is zero the check passes; when the latest proposal's freshly
recomputed status is Executed or Rejected the check passes; otherwise both
the check and the whole Propose call fail with CanNotPropose, and
CanNotPropose arises from no other place in Propose. -/
theorem claim_C7 (g : Group) (env : Env) (s : ContractState) (sender : Addr)
    (funds : List (String × Nat)) (data : VoteData) (latest : Option Expiration) :
    (last_id s = 0 → assert_last_proposal_has_done env s = Except.ok ()) ∧
    (∀ prop, s.getProposal (last_id s) = some prop →
      ((prop.current_status env.block = .executed ∨
          prop.current_status env.block = .rejected) →
        assert_last_proposal_has_done env s = Except.ok ()) ∧
      (last_id s ≠ 0 →
        ¬(prop.current_status env.block = .executed ∨
            prop.current_status env.block = .rejected) →
        assert_last_proposal_has_done env s = Except.error (.contract .CanNotPropose) ∧
        execute_propose g env s sender funds data latest
          = Except.error (.contract .CanNotPropose))) ∧
    (execute_propose g env s sender funds data latest
        = Except.error (.contract .CanNotPropose) →
      assert_last_proposal_has_done env s = Except.error (.contract .CanNotPropose)) := by
  refine ⟨?_, ?_, ?_⟩
  · intro h0
    simp only [assert_last_proposal_has_done, h0]
    simp
  · intro prop hp
    constructor
    · intro hdone
      unfold assert_last_proposal_has_done
      by_cases h0 : last_id s = 0
      · rw [if_pos h0]
      · rw [if_neg h0, hp]
        simp only [Proposal.update_status]
        rcases hdone with h | h <;> rw [h]
    · intro h0 hnot
      have hassert : assert_last_proposal_has_done env s
          = Except.error (.contract .CanNotPropose) := by
        unfold assert_last_proposal_has_done
        rw [if_neg h0, hp]
        simp only [Proposal.update_status]
        cases hcur : prop.current_status env.block <;> simp_all
      exact ⟨hassert, by simp only [execute_propose, hassert]⟩
  · intro h
    cases hassert : assert_last_proposal_has_done env s with
    | error e =>
      have hrun : execute_propose g env s sender funds data latest = Except.error e := by
        simp only [execute_propose, hassert]
      rw [hrun] at h
      injection h with h'
      rw [h']
    | ok u =>
      cases u
      simp only [execute_propose, hassert] at h
      split at h
      · exact absurd h (by simp)
      · split at h
        · exact absurd h (by simp)
        · split at h
          · exact absurd h (by simp)
          · split at h
            · exact absurd h (by simp)
            · split at h
              · exact absurd h (by simp)
              · exact absurd h (by simp)

/-- C7 (witness): the gate passes on a fresh state (counter zero) and
rejects a second Propose while proposal 1 is still Open. -/
theorem claim_C7_witness :
    assert_last_proposal_has_done ⟨⟨100, 0⟩, "c"⟩
      ⟨⟨"o", .absolute_count 2, .height 10, "g", none, ["h1"], ["a"]⟩, 0, [], []⟩
      = Except.ok () ∧
    execute_propose ⟨fun _ => [("u", 1)], [("u", 1)]⟩ ⟨⟨100, 0⟩, "c"⟩
        ⟨⟨"o", .absolute_count 2, .height 10, "g", none, ["h1"], ["a"]⟩, 1,
          [(1, ⟨"", "", 100, .atHeight 110, .open, .absolute_count 2, 1,
            ⟨1, 0, 0, 0⟩, "u", none⟩)],
          [((1, "u"), ⟨1, [("a", 5)]⟩)]⟩
        "u" [] [("a", 6)] none
      = Except.error (.contract .CanNotPropose) := by
  constructor
  · exact (claim_C7 ⟨fun _ => [("u", 1)], [("u", 1)]⟩ ⟨⟨100, 0⟩, "c"⟩
      ⟨⟨"o", .absolute_count 2, .height 10, "g", none, ["h1"], ["a"]⟩, 0, [], []⟩
      "u" [] [("a", 5)] none).1 (by decide)
  · exact ((claim_C7 ⟨fun _ => [("u", 1)], [("u", 1)]⟩ ⟨⟨100, 0⟩, "c"⟩
      ⟨⟨"o", .absolute_count 2, .height 10, "g", none, ["h1"], ["a"]⟩, 1,
        [(1, ⟨"", "", 100, .atHeight 110, .open, .absolute_count 2, 1,
          ⟨1, 0, 0, 0⟩, "u", none⟩)],
        [((1, "u"), ⟨1, [("a", 5)]⟩)]⟩
      "u" [] [("a", 6)] none).2.1
      ⟨"", "", 100, .atHeight 110, .open, .absolute_count 2, 1,
        ⟨1, 0, 0, 0⟩, "u", none⟩
      (by decide)).2 (by decide) (by decide) |>.2


/-- C8: a zero-weight current member may Propose — the opening ballot is
stored with weight 0 and the opening Yes-vote of weight 0 is counted into
the tally — while the same zero-weight member's Vote on an existing proposal
fails with Unauthorized, because Vote resolves the weight at the proposal's
snapshot height and keeps only weights of at least 1. -/
theorem claim_C8 (g : Group) (env : Env) (s : ContractState) (sender : Addr)
    (funds : List (String × Nat)) (data : VoteData)
    (hv : s.config.verify_data data = true) :
    ((assert_last_proposal_has_done env s = Except.ok ()) →
      ((match s.config.proposal_deposit with
        | some dep => dep.check_native_deposit_paid funds
        | none => true) = true) →
      g.weight_now sender = some 0 →
      ∃ s' msgs, execute_propose g env s sender funds data none = Except.ok (s', msgs) ∧
        s'.getBallot (s.proposal_count + 1) sender = some ⟨0, data⟩ ∧
        (s'.getProposal (s.proposal_count + 1)).map (fun p => p.votes)
          = some (Votes.yesVotes 0)) ∧
    (∀ pid prop, s.getProposal pid = some prop →
      (prop.status = .open ∨ prop.status = .passed ∨ prop.status = .rejected) →
      prop.expires.is_expired env.block = false →
      g.weight_at prop.start_height sender = some 0 →
      execute_vote g env s sender pid data
        = Except.error (.contract .Unauthorized)) := by
  constructor
  · intro hdone hdep hm
    refine ⟨_, _, execute_propose_ok g env s sender funds data none 0 .eq hdone hv hdep hm
      (by simp [partial_cmp_after_self]), ?_, ?_⟩
    · exact getBallot_saveBallot_self _ _ _ _
    · rw [getProposal_saveBallot, getProposal_saveProposal_self]
      simp [Proposal.update_status]
  · intro pid prop hp hst hexp hm
    have hst' := eq_true hst
    have hvm : g.is_voting_member sender prop.start_height = none := by
      simp [Group.is_voting_member, hm]
    simp only [execute_vote, hv, hp, hexp, hvm, hst', Bool.not_true,
      Bool.false_eq_true, if_false]
    simp

/-- C8 (witness): member "z" has weight 0 in the roster; it can open
proposal 1 (ballot weight 0, tally 0) yet its Vote on an existing open
proposal is Unauthorized. -/
theorem claim_C8_witness :
    (∃ s' msgs, execute_propose ⟨fun _ => [("z", 0), ("u", 1)], [("z", 0), ("u", 1)]⟩
        ⟨⟨100, 0⟩, "c"⟩
        ⟨⟨"o", .absolute_count 2, .height 10, "g", none, ["h1"], ["a"]⟩, 0, [], []⟩
        "z" [] [("a", 5)] none = Except.ok (s', msgs) ∧
      s'.getBallot 1 "z" = some ⟨0, [("a", 5)]⟩ ∧
      (s'.getProposal 1).map (fun p => p.votes) = some (Votes.yesVotes 0)) ∧
    execute_vote ⟨fun _ => [("z", 0), ("u", 1)], [("z", 0), ("u", 1)]⟩ ⟨⟨100, 0⟩, "c"⟩
        ⟨⟨"o", .absolute_count 2, .height 10, "g", none, ["h1"], ["a"]⟩, 1,
          [(1, ⟨"", "", 100, .atHeight 110, .open, .absolute_count 2, 1,
            ⟨1, 0, 0, 0⟩, "u", none⟩)],
          [((1, "u"), ⟨1, [("a", 5)]⟩)]⟩
        "z" 1 [("a", 6)]
      = Except.error (.contract .Unauthorized) := by
  constructor
  · exact (claim_C8 ⟨fun _ => [("z", 0), ("u", 1)], [("z", 0), ("u", 1)]⟩ ⟨⟨100, 0⟩, "c"⟩
      ⟨⟨"o", .absolute_count 2, .height 10, "g", none, ["h1"], ["a"]⟩, 0, [], []⟩
      "z" [] [("a", 5)] (by decide)).1 rfl (by decide) (by decide)
  · exact (claim_C8 ⟨fun _ => [("z", 0), ("u", 1)], [("z", 0), ("u", 1)]⟩ ⟨⟨100, 0⟩, "c"⟩
      ⟨⟨"o", .absolute_count 2, .height 10, "g", none, ["h1"], ["a"]⟩, 1,
        [(1, ⟨"", "", 100, .atHeight 110, .open, .absolute_count 2, 1,
          ⟨1, 0, 0, 0⟩, "u", none⟩)],
        [((1, "u"), ⟨1, [("a", 5)]⟩)]⟩
      "z" [] [("a", 6)] (by decide)).2 1
      ⟨"", "", 100, .atHeight 110, .open, .absolute_count 2, 1,
        ⟨1, 0, 0, 0⟩, "u", none⟩
      (by decide) (by decide) (by decide) (by decide)


theorem option_mapM_some {α β : Type} (l : List α) (f : α → Option β)
    (h : ∀ x ∈ l, (f x).isSome) :
    ∃ ys, l.mapM f = some ys ∧ ys.length = l.length ∧
      ∀ y ∈ ys, ∃ x ∈ l, f x = some y := by
  induction l with
  | nil => exact ⟨[], rfl, rfl, by simp⟩
  | cons a t ih =>
    obtain ⟨ys, hys, hlen, hmem⟩ := ih (fun x hx => h x (List.mem_cons_of_mem a hx))
    obtain ⟨b, hb⟩ := Option.isSome_iff_exists.mp (h a (List.mem_cons_self a t))
    refine ⟨b :: ys, ?_, by simp [hlen], ?_⟩
    · rw [List.mapM_cons, hb, hys]
      rfl
    · intro y hy
      rcases List.mem_cons.mp hy with rfl | hy'
      · exact ⟨a, List.mem_cons_self a t, hb⟩
      · obtain ⟨x, hx, hfx⟩ := hmem y hy'
        exact ⟨x, List.mem_cons_of_mem a hx, hfx⟩

theorem except_mapM_ok {α β : Type} (l : List α) (f : α → Except VmErr β)
    (gg : α → β) (h : ∀ x ∈ l, f x = .ok (gg x)) :
    l.mapM f = .ok (l.map gg) := by
  induction l with
  | nil => rfl
  | cons a t ih =>
    rw [List.mapM_cons, h a (List.mem_cons_self a t),
      ih (fun x hx => h x (List.mem_cons_of_mem a hx))]
    rfl

theorem voteData_get_mem (d : VoteData) (k : String) (y : Nat)
    (h : VoteData.get d k = some y) : ∃ kv ∈ d, kv.2 = y := by
  unfold VoteData.get at h
  cases hf : d.find? (fun p => p.1 = k) with
  | none => rw [hf] at h; simp at h
  | some p =>
    rw [hf] at h
    simp at h
    exact ⟨p, List.mem_of_find?_eq_some hf, h⟩

theorem median_isSome_of_bounded (prices : List Nat) (hne : prices ≠ [])
    (hbd : ∀ y ∈ prices, y < 2 ^ 127) :
    ∃ m, calculate_median_price prices = some m := by
  rw [median_characterization prices hne]
  by_cases hmod : prices.length % 2 = 1
  · rw [if_pos hmod]
    exact ⟨_, rfl⟩
  · rw [if_neg hmod]
    have hlen : (List.insertionSort (· ≤ ·) prices).length = prices.length :=
      List.length_insertionSort _ _
    have hl : 0 < prices.length := List.length_pos.mpr hne
    have h1 : (List.insertionSort (· ≤ ·) prices).getD (prices.length / 2 - 1) 0 < 2 ^ 127 :=
      hbd _ ((List.mem_insertionSort _).mp (getD_mem _ _ (by omega)))
    have h2 : (List.insertionSort (· ≤ ·) prices).getD (prices.length / 2) 0 < 2 ^ 127 :=
      hbd _ ((List.mem_insertionSort _).mp (getD_mem _ _ (by omega)))
    have hU : U128_LIMIT = 2 ^ 127 + 2 ^ 127 := by norm_num [U128_LIMIT]
    rw [if_pos (by omega)]
    exact ⟨_, rfl⟩

/-- C2: a Vote whose recorded ballot lifts the recomputed status to Passed
immediately executes: the stored proposal is marked Executed, the median is
computed independently per configured price key over all stored ballots, one
append-price dispatch is emitted per (price key, hook contract) pair, and a
deposit-return instruction to the proposer is emitted (first) whenever a
deposit was captured. -/
theorem claim_C2 (g : Group) (env : Env) (s : ContractState) (sender : Addr)
    (pid : Nat) (data : VoteData) (prop : Proposal) (w : Nat)
    (hv : s.config.verify_data data = true)
    (hp : s.getProposal pid = some prop)
    (hst : prop.status = .open ∨ prop.status = .passed ∨ prop.status = .rejected)
    (hexp : prop.expires.is_expired env.block = false)
    (hm : g.is_voting_member sender prop.start_height = some w)
    (hb : s.getBallot pid sender = none)
    (hpass : (Proposal.update_status
        { prop with votes := prop.votes.add_vote .yes w } env.block).status = .passed)
    (hkeys : ∀ e ∈ (s.saveBallot pid sender ⟨w, data⟩).ballotsFor pid,
      ∀ k ∈ s.config.price_keys, (VoteData.get e.2.data k).isSome = true)
    (hbound : ∀ e ∈ (s.saveBallot pid sender ⟨w, data⟩).ballotsFor pid,
      ∀ kv ∈ e.2.data, kv.2 < 2 ^ 127) :
    ∃ (s' : ContractState) (med : String → Nat),
      execute_vote g env s sender pid data = Except.ok (s',
        (match prop.deposit with
         | some _ => [CosmosMsg.returnDeposit prop.proposer]
         | none => []) ++
        s.config.price_keys.flatMap (fun k =>
          s.config.hook_contracts.map (fun h =>
            CosmosMsg.appendPrice h k (med k) env.block.time_seconds))) ∧
      (s'.getProposal pid).map (fun p => p.status) = some .executed ∧
      (∀ k ∈ s.config.price_keys,
        ∃ prices,
          (((s.saveBallot pid sender ⟨w, data⟩).ballotsFor pid).map
              (fun e => e.2.data)).mapM (fun d => VoteData.get d k) = some prices ∧
          calculate_median_price prices = some (med k)) := by
  have hball : (s.saveBallot pid sender ⟨w, data⟩).ballotsFor pid
      = s.ballotsFor pid ++ [(sender, ⟨w, data⟩)] :=
    ballotsFor_saveBallot_same s pid sender ⟨w, data⟩ hb
  -- the per-key median, written as a total function
  refine ⟨(s.saveBallot pid sender ⟨w, data⟩).saveProposal pid
      { (Proposal.update_status { prop with votes := prop.votes.add_vote .yes w }
          env.block) with status := .executed }, fun k =>
    (((((s.saveBallot pid sender ⟨w, data⟩).ballotsFor pid).map
        (fun e => e.2.data)).mapM (fun d => VoteData.get d k)).bind
      calculate_median_price).getD 0, ?_⟩
  -- per-key facts
  have hkey : ∀ k ∈ s.config.price_keys,
      ∃ prices,
        (((s.saveBallot pid sender ⟨w, data⟩).ballotsFor pid).map
            (fun e => e.2.data)).mapM (fun d => VoteData.get d k) = some prices ∧
        ∃ m, calculate_median_price prices = some m := by
    intro k hk
    obtain ⟨prices, hpr, hlen, hmem⟩ := option_mapM_some
      (((s.saveBallot pid sender ⟨w, data⟩).ballotsFor pid).map (fun e => e.2.data))
      (fun d => VoteData.get d k)
      (by
        intro d hd
        obtain ⟨e, he, hde⟩ := List.mem_map.mp hd
        rw [← hde]
        exact hkeys e he k hk)
    have hne : prices ≠ [] := by
      have : 0 < prices.length := by
        rw [hlen, List.length_map, hball]
        simp
      exact List.ne_nil_of_length_pos this
    have hbd : ∀ y ∈ prices, y < 2 ^ 127 := by
      intro y hy
      obtain ⟨d, hd, hdy⟩ := hmem y hy
      obtain ⟨e, he, hde⟩ := List.mem_map.mp hd
      obtain ⟨kv, hkv, hkvy⟩ := voteData_get_mem d k y hdy
      rw [← hkvy]
      apply hbound e he
      rw [hde]
      exact hkv
    obtain ⟨m, hmed⟩ := median_isSome_of_bounded prices hne hbd
    exact ⟨prices, hpr, m, hmed⟩
  -- build_dispatch succeeds and produces exactly the per-pair dispatches
  have hf : ∀ k ∈ s.config.price_keys,
      (fun price_key =>
        match extract_prices
            (((s.saveBallot pid sender ⟨w, data⟩).ballotsFor pid).map
              (fun e => e.2.data)) price_key with
        | .error e => Except.error e
        | .ok prices =>
          match calculate_median_price prices with
          | some median_price =>
            Except.ok (s.config.hook_contracts.map (fun addr =>
              CosmosMsg.appendPrice addr price_key median_price env.block.time_seconds))
          | none => Except.error VmErr.medianFail) k
      = Except.ok (s.config.hook_contracts.map (fun h =>
          CosmosMsg.appendPrice h k
            ((((((s.saveBallot pid sender ⟨w, data⟩).ballotsFor pid).map
                (fun e => e.2.data)).mapM (fun d => VoteData.get d k)).bind
              calculate_median_price).getD 0)
            env.block.time_seconds)) := by
    intro k hk
    obtain ⟨prices, hpr, m, hmed⟩ := hkey k hk
    simp only [extract_prices, hpr, hmed, Option.some_bind, Option.getD_some]
  have hmapM := except_mapM_ok s.config.price_keys _ _ hf
  have hbuild : build_dispatch s.config
      (((s.saveBallot pid sender ⟨w, data⟩).ballotsFor pid).map (fun e => e.2.data))
      env.block.time_seconds
      = Except.ok ((s.config.price_keys.map (fun k =>
          s.config.hook_contracts.map (fun h =>
            CosmosMsg.appendPrice h k
              ((((((s.saveBallot pid sender ⟨w, data⟩).ballotsFor pid).map
                  (fun e => e.2.data)).mapM (fun d => VoteData.get d k)).bind
                calculate_median_price).getD 0)
              env.block.time_seconds))).flatten) := by
    unfold build_dispatch
    rw [hmapM]
  have hst' := eq_true hst
  refine ⟨?_, ?_, ?_⟩
  · simp only [execute_vote, hv, hp, hexp, hm, hb, hst', Bool.not_true,
      Bool.false_eq_true, if_false]
    rw [if_pos hpass]
    rw [hbuild]
    cases hdp : prop.deposit with
    | none => simp [DepositInfo.get_return_deposit_message, List.flatMap_def, hdp,
        Proposal.update_status]
    | some dep => simp [DepositInfo.get_return_deposit_message, List.flatMap_def, hdp,
        Proposal.update_status]
  · rw [getProposal_saveProposal_self]
    rfl
  · intro k hk
    obtain ⟨prices, hpr, m, hmed⟩ := hkey k hk
    refine ⟨prices, hpr, ?_⟩
    simp only [hpr, hmed, Option.some_bind, Option.getD_some]


/-- C2 (witness): two members of weight 1, absolute-count threshold 2, one
price key, one hook contract, a captured native deposit; the second vote
passes the proposal and the call returns the deposit and dispatches the
median (5 and 7 give 6) stamped with the block time in seconds. -/
theorem claim_C2_witness :
    ∃ s', execute_vote ⟨fun _ => [("u", 1), ("v", 1)], [("u", 1), ("v", 1)]⟩
        ⟨⟨100, 5000000000⟩, "c"⟩
        ⟨⟨"o", .absolute_count 2, .height 10, "g", some ⟨7, .native "orai", false⟩,
            ["h1"], ["a"]⟩, 1,
          [(1, ⟨"", "", 100, .atHeight 110, .open, .absolute_count 2, 2,
            ⟨1, 0, 0, 0⟩, "u", some ⟨7, .native "orai", false⟩⟩)],
          [((1, "u"), ⟨1, [("a", 5)]⟩)]⟩
        "v" 1 [("a", 7)]
      = Except.ok (s',
          [CosmosMsg.returnDeposit "u", CosmosMsg.appendPrice "h1" "a" 6 5]) ∧
      (s'.getProposal 1).map (fun p => p.status) = some .executed := by
  obtain ⟨s', med, h1, h2, h3⟩ := claim_C2
    ⟨fun _ => [("u", 1), ("v", 1)], [("u", 1), ("v", 1)]⟩ ⟨⟨100, 5000000000⟩, "c"⟩
    ⟨⟨"o", .absolute_count 2, .height 10, "g", some ⟨7, .native "orai", false⟩,
        ["h1"], ["a"]⟩, 1,
      [(1, ⟨"", "", 100, .atHeight 110, .open, .absolute_count 2, 2,
        ⟨1, 0, 0, 0⟩, "u", some ⟨7, .native "orai", false⟩⟩)],
      [((1, "u"), ⟨1, [("a", 5)]⟩)]⟩
    "v" 1 [("a", 7)]
    ⟨"", "", 100, .atHeight 110, .open, .absolute_count 2, 2,
      ⟨1, 0, 0, 0⟩, "u", some ⟨7, .native "orai", false⟩⟩ 1
    (by decide) (by decide) (by decide) (by decide) (by decide) (by decide)
    (by decide) (by decide) (by decide)
  obtain ⟨prices, hpr, hmed⟩ := h3 "a" (by simp)
  have h57 : some prices = some [5, 7] := hpr.symm.trans rfl
  injection h57 with hpv
  rw [hpv] at hmed
  have hm6 : med "a" = 6 := by
    have hc : calculate_median_price [5, 7] = some 6 := by decide
    injection (hc.symm.trans hmed) with hh
    exact hh.symm
  refine ⟨s', ?_, h2⟩
  simpa [hm6] using h1


theorem verify_data_keys (cfg : Config) (data : VoteData)
    (h : cfg.verify_data data = true) :
    ∀ k ∈ cfg.price_keys, (VoteData.get data k).isSome = true := by
  unfold Config.verify_data at h
  rw [Bool.and_eq_true] at h
  intro k hk
  exact List.all_eq_true.mp h.1 k hk

/-- The dispatch-building loop never fails with a missing-key panic when
every submitted data set covers every configured price key: it either
succeeds or fails in the median itself. -/
theorem build_dispatch_cases (cfg : Config) (data_list : List VoteData) (ts : Nat)
    (h : ∀ d ∈ data_list, ∀ k' ∈ cfg.price_keys, (VoteData.get d k').isSome = true) :
    (∃ msgs, build_dispatch cfg data_list ts = Except.ok msgs) ∨
      build_dispatch cfg data_list ts = Except.error VmErr.medianFail := by
  unfold build_dispatch
  have main : ∀ keys : List String,
      (∀ d ∈ data_list, ∀ k' ∈ keys, (VoteData.get d k').isSome = true) →
      (∃ gs, keys.mapM (fun price_key =>
          match extract_prices data_list price_key with
          | .error e => Except.error e
          | .ok prices =>
            match calculate_median_price prices with
            | some median_price =>
              Except.ok (cfg.hook_contracts.map (fun addr =>
                CosmosMsg.appendPrice addr price_key median_price ts))
            | none => Except.error VmErr.medianFail) = Except.ok gs) ∨
        keys.mapM (fun price_key =>
          match extract_prices data_list price_key with
          | .error e => Except.error e
          | .ok prices =>
            match calculate_median_price prices with
            | some median_price =>
              Except.ok (cfg.hook_contracts.map (fun addr =>
                CosmosMsg.appendPrice addr price_key median_price ts))
            | none => Except.error VmErr.medianFail) = Except.error VmErr.medianFail := by
    intro keys
    induction keys with
    | nil => intro _; exact Or.inl ⟨[], rfl⟩
    | cons k' t ih =>
      intro hks
      obtain ⟨prices, hpr, _, _⟩ := option_mapM_some data_list (fun d => VoteData.get d k')
        (fun d hd => hks d hd k' (List.mem_cons_self k' t))
      have hex : extract_prices data_list k' = Except.ok prices := by
        unfold extract_prices
        rw [hpr]
      cases hmed : calculate_median_price prices with
      | none =>
        right
        rw [List.mapM_cons]
        simp only [hex, hmed]
        rfl
      | some m =>
        rcases ih (fun d hd k'' hk'' => hks d hd k'' (List.mem_cons_of_mem k' hk'')) with
          ⟨gs, hgs⟩ | hfail
        · left
          refine ⟨(cfg.hook_contracts.map (fun addr =>
            CosmosMsg.appendPrice addr k' m ts)) :: gs, ?_⟩
          rw [List.mapM_cons]
          simp only [hex, hmed, hgs]
          rfl
        · right
          rw [List.mapM_cons]
          simp only [hex, hmed, hfail]
          rfl
  rcases main cfg.price_keys h with ⟨gs, hgs⟩ | hfail
  · exact Or.inl ⟨gs.flatten, by rw [hgs]⟩
  · exact Or.inr (by rw [hfail])

/-- C10: provided every stored ballot of the proposal covers every live
price key (true as long as price_keys was not changed after the ballots were
validated), no Vote call can hit the missing-key panic; but UpdateConfig may
replace price_keys while a proposal is open, after which a reachable Vote
performs the undefined lookup: proposal 1 is opened under key "a", the owner
replaces the key set with "b", and the passing vote panics looking up "b" in
the proposer's stored data. -/
theorem claim_C10 :
    (∀ (g : Group) (env : Env) (s : ContractState) (sender : Addr) (pid : Nat)
        (data : VoteData) (k : String),
      (∀ e ∈ s.ballotsFor pid, ∀ k' ∈ s.config.price_keys,
        (VoteData.get e.2.data k').isSome = true) →
      execute_vote g env s sender pid data ≠ Except.error (.missingKey k)) ∧
    (∃ (s1 s2 : ContractState) (m1 m2 : List CosmosMsg),
      execute_propose ⟨fun _ => [("u", 1), ("v", 1)], [("u", 1), ("v", 1)]⟩
          ⟨⟨100, 0⟩, "c"⟩
          ⟨⟨"o", .absolute_count 2, .height 10, "g", none, ["h1"], ["a"]⟩, 0, [], []⟩
          "u" [] [("a", 5)] none = Except.ok (s1, m1) ∧
      execute_update_config s1 "o" none none none (some ["b"]) none
        = Except.ok (s2, m2) ∧
      execute_vote ⟨fun _ => [("u", 1), ("v", 1)], [("u", 1), ("v", 1)]⟩
          ⟨⟨100, 0⟩, "c"⟩ s2 "v" 1 [("b", 7)]
        = Except.error (.missingKey "b")) := by
  constructor
  · intro g env s sender pid data k hkeys hcontra
    simp only [execute_vote] at hcontra
    rcases Bool.eq_false_or_eq_true (s.config.verify_data data) with hverify' | hvf
    case inr =>
      rw [hvf] at hcontra
      simp at hcontra
    case inl =>
      rw [hverify'] at hcontra
      simp only [Bool.not_true, Bool.false_eq_true, if_false] at hcontra
      split at hcontra
      · simp at hcontra
      · rename_i prop hprop
        split at hcontra
        · simp at hcontra
        · split at hcontra
          · simp at hcontra
          · split at hcontra
            · simp at hcontra
            · rename_i w hw
              split at hcontra
              · simp at hcontra
              · rename_i hbal
                split at hcontra
                · -- eager branch
                  have hall : ∀ d' ∈ ((s.saveBallot pid sender ⟨w, data⟩).ballotsFor pid).map
                      (fun e => e.2.data),
                      ∀ k' ∈ s.config.price_keys, (VoteData.get d' k').isSome = true := by
                    intro d' hd' k' hk'
                    obtain ⟨e, he, hde⟩ := List.mem_map.mp hd'
                    rw [ballotsFor_saveBallot_same s pid sender ⟨w, data⟩ hbal] at he
                    rcases List.mem_append.mp he with hold | hnew
                    · rw [← hde]
                      exact hkeys e hold k' hk'
                    · have he' : e = (sender, ⟨w, data⟩) := by simpa using hnew
                      rw [← hde, he']
                      exact verify_data_keys s.config data hverify' k' hk'
                  rcases build_dispatch_cases s.config
                      (((s.saveBallot pid sender ⟨w, data⟩).ballotsFor pid).map
                        (fun e => e.2.data)) env.block.time_seconds hall with
                    ⟨msgs, hmsgs⟩ | hfail
                  · split at hcontra
                    · rename_i e hbe
                      rw [hmsgs] at hbe
                      simp at hbe
                    · simp at hcontra
                  · split at hcontra
                    · rename_i e hbe
                      rw [hfail] at hbe
                      injection hbe with hbe'
                      rw [← hbe'] at hcontra
                      simp at hcontra
                    · simp at hcontra
                · simp at hcontra
  · exact ⟨_, _, _, _, rfl, rfl, rfl⟩

/-- C10 (witness): a concrete state whose single stored ballot covers the
single configured price key; the guarded conjunct rules out a missing-key
failure for a vote on it. -/
theorem claim_C10_witness :
    execute_vote ⟨fun _ => [("u", 1), ("v", 1)], [("u", 1), ("v", 1)]⟩ ⟨⟨100, 0⟩, "c"⟩
        ⟨⟨"o", .absolute_count 2, .height 10, "g", none, ["h1"], ["a"]⟩, 1,
          [(1, ⟨"", "", 100, .atHeight 110, .open, .absolute_count 2, 2,
            ⟨1, 0, 0, 0⟩, "u", none⟩)],
          [((1, "u"), ⟨1, [("a", 5)]⟩)]⟩
        "v" 1 [("a", 7)]
      ≠ Except.error (.missingKey "a") :=
  claim_C10.1 ⟨fun _ => [("u", 1), ("v", 1)], [("u", 1), ("v", 1)]⟩ ⟨⟨100, 0⟩, "c"⟩
    ⟨⟨"o", .absolute_count 2, .height 10, "g", none, ["h1"], ["a"]⟩, 1,
      [(1, ⟨"", "", 100, .atHeight 110, .open, .absolute_count 2, 2,
        ⟨1, 0, 0, 0⟩, "u", none⟩)],
      [((1, "u"), ⟨1, [("a", 5)]⟩)]⟩
    "v" 1 [("a", 7)] "a" (by decide)


/-- Ballots by pairwise-distinct voters, each recorded with the voter's
roster weight, sum to at most the roster's total weight. -/
theorem sum_ballot_weights_le (members : List (Addr × Nat)) (B : List (Addr × Data))
    (hnd : (B.map (fun e => e.1)).Nodup)
    (hw : ∀ e ∈ B, (members.find? (fun m => m.1 = e.1)).map (fun m => m.2)
        = some e.2.weight) :
    (B.map (fun e => e.2.weight)).sum ≤ (members.map (fun m => m.2)).sum := by
  have hpairsnd : ((B.map (fun e => (e.1, e.2.weight))).map Prod.fst).Nodup := by
    rw [List.map_map]
    exact hnd
  have hpairs : (B.map (fun e => (e.1, e.2.weight))).Nodup :=
    List.Nodup.of_map _ hpairsnd
  have hsubset : (B.map (fun e => (e.1, e.2.weight))) ⊆ members := by
    intro p hp
    obtain ⟨e, he, rfl⟩ := List.mem_map.mp hp
    have hwe := hw e he
    cases hf : members.find? (fun m => m.1 = e.1) with
    | none => rw [hf] at hwe; simp at hwe
    | some m =>
      rw [hf] at hwe
      simp at hwe
      have hm := List.mem_of_find?_eq_some hf
      have hm1 : m.1 = e.1 := by simpa using List.find?_some hf
      have hpe : (e.1, e.2.weight) = m := by
        obtain ⟨m1, m2⟩ := m
        simp only at hm1 hwe
        rw [hm1, hwe]
      rw [hpe]
      exact hm
  obtain ⟨l', hperm, hsubl⟩ := List.subperm_of_subset hpairs hsubset
  have h1 : (B.map (fun e => e.2.weight)).sum
      = ((B.map (fun e => (e.1, e.2.weight))).map (fun m => m.2)).sum := by
    rw [List.map_map]
    rfl
  rw [h1]
  calc ((B.map (fun e => (e.1, e.2.weight))).map (fun m => m.2)).sum
      = (l'.map (fun m => m.2)).sum := ((hperm.map (fun m => m.2)).sum_eq).symm
    _ ≤ (members.map (fun m => m.2)).sum :=
        (hsubl.map (fun m => m.2)).sum_le_sum (by simp)

theorem is_voting_member_weight_at (g : Group) (a : Addr) (h : Nat) (w : Nat)
    (hm : g.is_voting_member a h = some w) : g.weight_at h a = some w := by
  unfold Group.is_voting_member at hm
  cases hwa : g.weight_at h a with
  | none => rw [hwa] at hm; simp at hm
  | some w' =>
    rw [hwa] at hm
    by_cases h1 : 1 ≤ w'
    · simp only [h1, if_true] at hm
      exact hm
    · simp [h1] at hm

theorem getBallot_none_of_ballotsFor_nil (s : ContractState) (pid : Nat) (a : Addr)
    (h : s.ballotsFor pid = []) : s.getBallot pid a = none := by
  unfold ContractState.getBallot assocGet
  cases hf : s.ballots.find? (fun e => e.1 = (pid, a)) with
  | none => rfl
  | some e =>
    exfalso
    have hmem := List.mem_of_find?_eq_some hf
    have hpe : e.1 = (pid, a) := by simpa using List.find?_some hf
    have : (e.1.2, e.2) ∈ s.ballotsFor pid := by
      unfold ContractState.ballotsFor
      refine List.mem_map.mpr ⟨e, ?_, rfl⟩
      refine List.mem_filter.mpr ⟨hmem, ?_⟩
      rw [hpe]
      simp
    rw [h] at this
    simp at this

/-- Inversion of a successful Propose: the new state is the incremented
counter, the freshly built proposal stored at the new id, and the proposer's
opening ballot. -/
theorem execute_propose_inv (g : Group) (env : Env) (s0 : ContractState)
    (sender : Addr) (funds : List (String × Nat)) (data : VoteData)
    (latest : Option Expiration) (s' : ContractState) (msgs : List CosmosMsg)
    (hok : execute_propose g env s0 sender funds data latest = Except.ok (s', msgs)) :
    ∃ w expires,
      g.weight_now sender = some w ∧
      s' = (({ s0 with proposal_count := s0.proposal_count + 1 } : ContractState).saveProposal
          (s0.proposal_count + 1)
          (Proposal.update_status
            { title := ""
              description := ""
              start_height := env.block.height
              expires := expires
              status := .open
              votes := Votes.yesVotes w
              threshold := s0.config.threshold
              total_weight := g.total_weight
              proposer := sender
              deposit := s0.config.proposal_deposit } env.block)).saveBallot
        (s0.proposal_count + 1) sender ⟨w, data⟩ := by
  simp only [execute_propose] at hok
  split at hok
  · simp at hok
  · split at hok
    · simp at hok
    · split at hok
      · simp at hok
      · split at hok
        · simp at hok
        · rename_i w hw
          split at hok
          · simp at hok
          · rename_i c hc
            refine ⟨w, if c = .gt then s0.config.max_submitting_period.after env.block
              else latest.getD (s0.config.max_submitting_period.after env.block),
              hw, ?_⟩
            injection hok with hok'
            injection hok' with hs hm
            exact hs.symm

/-- Inversion of a successful Vote: the ballot is appended and the proposal
is re-stored with the added Yes weight, either executed (eager branch) or
with the refreshed status. -/
theorem execute_vote_inv (g : Group) (env : Env) (s : ContractState)
    (sender : Addr) (pid' : Nat) (data : VoteData) (s' : ContractState)
    (msgs : List CosmosMsg)
    (hok : execute_vote g env s sender pid' data = Except.ok (s', msgs)) :
    ∃ prop w, s.getProposal pid' = some prop ∧
      g.is_voting_member sender prop.start_height = some w ∧
      s.getBallot pid' sender = none ∧
      (s' = (s.saveBallot pid' sender ⟨w, data⟩).saveProposal pid'
          { (Proposal.update_status
              { prop with votes := prop.votes.add_vote .yes w } env.block) with
            status := .executed } ∨
       s' = (s.saveBallot pid' sender ⟨w, data⟩).saveProposal pid'
          (Proposal.update_status
            { prop with votes := prop.votes.add_vote .yes w } env.block)) := by
  simp only [execute_vote] at hok
  split at hok
  · simp at hok
  · split at hok
    · simp at hok
    · rename_i prop hprop
      split at hok
      · simp at hok
      · split at hok
        · simp at hok
        · split at hok
          · simp at hok
          · rename_i w hw
            split at hok
            · simp at hok
            · rename_i hbal
              split at hok
              · split at hok
                · simp at hok
                · refine ⟨prop, w, hprop, hw, hbal, Or.inl ?_⟩
                  injection hok with hok'
                  injection hok' with hs hm
                  exact hs.symm
              · refine ⟨prop, w, hprop, hw, hbal, Or.inr ?_⟩
                injection hok with hok'
                injection hok' with hs hm
                exact hs.symm

/-- Inversion of a successful Close: the stored proposal is re-stored with
status Rejected; nothing else changes. -/
theorem execute_close_inv (env : Env) (s : ContractState) (pid' : Nat)
    (s' : ContractState) (msgs : List CosmosMsg)
    (hok : execute_close env s pid' = Except.ok (s', msgs)) :
    ∃ prop, s.getProposal pid' = some prop ∧
      s' = s.saveProposal pid' { prop with status := .rejected } := by
  simp only [execute_close] at hok
  split at hok
  · simp at hok
  · rename_i prop hprop
    split at hok
    · simp at hok
    · split at hok
      · simp at hok
      · split at hok
        · simp at hok
        · refine ⟨prop, hprop, ?_⟩
          injection hok with hok'
          injection hok' with hs hm
          exact hs.symm

/-- Inversion of a successful UpdateConfig: only the config changes. -/
theorem execute_update_config_inv (s : ContractState) (sender : Addr)
    (owner : Option Addr) (threshold : Option Threshold) (msp : Option Duration)
    (price_keys : Option (List String)) (hooks : Option (List Addr))
    (s' : ContractState) (msgs : List CosmosMsg)
    (hok : execute_update_config s sender owner threshold msp price_keys hooks
      = Except.ok (s', msgs)) :
    s'.proposal_count = s.proposal_count ∧ s'.proposals = s.proposals ∧
      s'.ballots = s.ballots := by
  simp only [execute_update_config] at hok
  split at hok
  · simp at hok
  · injection hok with hok'
    injection hok' with hs hm
    rw [← hs]
    exact ⟨rfl, rfl, rfl⟩


/-- States reachable for proposal `pid` from the Propose call that creates
it, under arbitrary subsequent successful calls.  The roster-coherence
premise of the opening step states that the current roster and the snapshot
at the opening height agree at creation time (both queries of the Propose
call happen in the same block). -/
inductive reachable (g : Group) (pid : Nat) : ContractState → Prop
  | propose (env : Env) (s0 : ContractState) (sender : Addr)
      (funds : List (String × Nat)) (data : VoteData) (latest : Option Expiration)
      (s' : ContractState) (msgs : List CosmosMsg) :
      g.current = g.members_at env.block.height →
      s0.ballotsFor (s0.proposal_count + 1) = [] →
      pid = s0.proposal_count + 1 →
      execute_propose g env s0 sender funds data latest = Except.ok (s', msgs) →
      reachable g pid s'
  | vote (s : ContractState) (env : Env) (sender : Addr) (pid' : Nat)
      (data : VoteData) (s' : ContractState) (msgs : List CosmosMsg) :
      reachable g pid s →
      execute_vote g env s sender pid' data = Except.ok (s', msgs) →
      reachable g pid s'
  | close (s : ContractState) (env : Env) (pid' : Nat) (s' : ContractState)
      (msgs : List CosmosMsg) :
      reachable g pid s →
      execute_close env s pid' = Except.ok (s', msgs) →
      reachable g pid s'
  | config_change (s : ContractState) (sender : Addr) (owner : Option Addr)
      (threshold : Option Threshold) (msp : Option Duration)
      (price_keys : Option (List String)) (hooks : Option (List Addr))
      (s' : ContractState) (msgs : List CosmosMsg) :
      reachable g pid s →
      execute_update_config s sender owner threshold msp price_keys hooks
        = Except.ok (s', msgs) →
      reachable g pid s'
  | propose_other (env : Env) (s : ContractState) (sender : Addr)
      (funds : List (String × Nat)) (data : VoteData) (latest : Option Expiration)
      (s' : ContractState) (msgs : List CosmosMsg) :
      reachable g pid s →
      execute_propose g env s sender funds data latest = Except.ok (s', msgs) →
      reachable g pid s'

/-- Tally bookkeeping invariant for one proposal: the Yes tally equals the
sum of the stored ballot weights, ballot voters are pairwise distinct and
carry their snapshot-height roster weights, and the snapshotted total weight
is the roster total at the snapshot height. -/
def TallyInv (g : Group) (pid : Nat) (s : ContractState) : Prop :=
  pid ≤ s.proposal_count ∧
  ∀ prop, s.getProposal pid = some prop →
    prop.votes.yes = ((s.ballotsFor pid).map (fun e => e.2.weight)).sum ∧
    ((s.ballotsFor pid).map (fun e => e.1)).Nodup ∧
    (∀ e ∈ s.ballotsFor pid, g.weight_at prop.start_height e.1 = some e.2.weight) ∧
    prop.total_weight = ((g.members_at prop.start_height).map (fun m => m.2)).sum

theorem TallyInv_congr (g : Group) (pid : Nat) (s s' : ContractState)
    (hc : s.proposal_count ≤ s'.proposal_count)
    (hp : s'.getProposal pid = s.getProposal pid)
    (hb : s'.ballotsFor pid = s.ballotsFor pid)
    (h : TallyInv g pid s) : TallyInv g pid s' := by
  obtain ⟨h1, h2⟩ := h
  refine ⟨le_trans h1 hc, ?_⟩
  intro prop hprop
  rw [hp] at hprop
  rw [hb]
  exact h2 prop hprop

theorem TallyInv_vote_self (g : Group) (pid : Nat) (s : ContractState)
    (sender : Addr) (data : VoteData) (w : Nat) (prop₀ P : Proposal)
    (hp₀ : s.getProposal pid = some prop₀)
    (hw : g.is_voting_member sender prop₀.start_height = some w)
    (hbal : s.getBallot pid sender = none)
    (hv : P.votes = prop₀.votes.add_vote .yes w)
    (hsh : P.start_height = prop₀.start_height)
    (htw : P.total_weight = prop₀.total_weight)
    (h : TallyInv g pid s) :
    TallyInv g pid ((s.saveBallot pid sender ⟨w, data⟩).saveProposal pid P) := by
  obtain ⟨h1, h2⟩ := h
  obtain ⟨hsum, hnd, hwts, htot⟩ := h2 prop₀ hp₀
  have hbf : ((s.saveBallot pid sender ⟨w, data⟩).saveProposal pid P).ballotsFor pid
      = s.ballotsFor pid ++ [(sender, ⟨w, data⟩)] := by
    rw [ballotsFor_saveProposal, ballotsFor_saveBallot_same s pid sender _ hbal]
  refine ⟨h1, ?_⟩
  intro prop hprop
  rw [getProposal_saveProposal_self] at hprop
  injection hprop with hPp
  subst hPp
  refine ⟨?_, ?_, ?_, ?_⟩
  · rw [hbf, hv]
    simp [Votes.add_vote, List.sum_append, hsum]
  · rw [hbf, List.map_append]
    refine List.Nodup.append hnd (List.nodup_singleton _) ?_
    intro a ha hb
    have hab : a = sender := by simpa using hb
    rw [hab] at ha
    exact not_mem_ballotsFor_of_getBallot_none s pid sender hbal ha
  · intro e he
    rw [hbf] at he
    rcases List.mem_append.mp he with hold | hnew
    · rw [hsh]
      exact hwts e hold
    · have he' : e = (sender, ⟨w, data⟩) := by simpa using hnew
      rw [he', hsh]
      exact is_voting_member_weight_at g sender prop₀.start_height w hw
  · rw [htw, hsh]
    exact htot

/-- Every reachable state satisfies the tally invariant. -/
theorem reachable_TallyInv (g : Group) (pid : Nat) (s : ContractState)
    (h : reachable g pid s) : TallyInv g pid s := by
  induction h with
  | propose env s0 sender funds data latest s' msgs hcoh hnil hpid hok =>
    obtain ⟨w, expires, hw, rfl⟩ := execute_propose_inv g env s0 sender funds data
      latest _ _ hok
    subst hpid
    have hw' : g.weight_at env.block.height sender = some w := by
      unfold Group.weight_now at hw
      unfold Group.weight_at
      rw [← hcoh]
      exact hw
    have hb0 : ContractState.ballotsFor
        (({ s0 with proposal_count := s0.proposal_count + 1 } : ContractState).saveProposal
          (s0.proposal_count + 1)
          (Proposal.update_status
            { title := ""
              description := ""
              start_height := env.block.height
              expires := expires
              status := .open
              votes := Votes.yesVotes w
              threshold := s0.config.threshold
              total_weight := g.total_weight
              proposer := sender
              deposit := s0.config.proposal_deposit } env.block))
        (s0.proposal_count + 1) = [] := by
      rw [ballotsFor_saveProposal]
      exact hnil
    have hbn := getBallot_none_of_ballotsFor_nil _ _ sender hb0
    have hbf := ballotsFor_saveBallot_same _ (s0.proposal_count + 1) sender
      (⟨w, data⟩ : Data) hbn
    rw [hb0] at hbf
    refine ⟨?_, ?_⟩
    · simp [ContractState.saveBallot, ContractState.saveProposal]
    · intro prop hprop
      rw [getProposal_saveBallot, getProposal_saveProposal_self] at hprop
      injection hprop with hPp
      subst hPp
      rw [hbf]
      refine ⟨?_, ?_, ?_, ?_⟩
      · simp [Proposal.update_status, Votes.yesVotes]
      · simp
      · intro e he
        have he' : e = (sender, (⟨w, data⟩ : Data)) := by simpa using he
        rw [he']
        simp only [Proposal.update_status]
        exact hw'
      · simp only [Proposal.update_status]
        unfold Group.total_weight
        rw [hcoh]
  | vote s env sender pid' data s' msgs hre hok ih =>
    obtain ⟨prop₀, w, hp₀, hw, hbal, hcase⟩ := execute_vote_inv g env s sender pid'
      data _ _ hok
    by_cases hpp : pid' = pid
    · subst hpp
      rcases hcase with rfl | rfl
      · exact TallyInv_vote_self g pid' s sender data w prop₀ _ hp₀ hw hbal
          (by simp [Proposal.update_status]) (by simp [Proposal.update_status])
          (by simp [Proposal.update_status]) ih
      · exact TallyInv_vote_self g pid' s sender data w prop₀ _ hp₀ hw hbal
          (by simp [Proposal.update_status]) (by simp [Proposal.update_status])
          (by simp [Proposal.update_status]) ih
    · rcases hcase with rfl | rfl <;>
      · refine TallyInv_congr g pid s _ (le_refl _) ?_ ?_ ih
        · rw [getProposal_saveProposal_ne _ _ _ _ (fun hc => hpp hc.symm)]
          rfl
        · rw [ballotsFor_saveProposal,
            ballotsFor_saveBallot_ne s pid pid' sender _ (fun hc => hpp hc.symm)]
  | close s env pid' s' msgs hre hok ih =>
    obtain ⟨prop₀, hp₀, rfl⟩ := execute_close_inv env s pid' _ _ hok
    by_cases hpp : pid' = pid
    · subst hpp
      obtain ⟨h1, h2⟩ := ih
      obtain ⟨hsum, hnd, hwts, htot⟩ := h2 prop₀ hp₀
      refine ⟨h1, ?_⟩
      intro prop hprop
      rw [getProposal_saveProposal_self] at hprop
      injection hprop with hPp
      subst hPp
      rw [ballotsFor_saveProposal]
      exact ⟨hsum, hnd, hwts, htot⟩
    · refine TallyInv_congr g pid s _ (le_refl _) ?_ ?_ ih
      · exact getProposal_saveProposal_ne _ _ _ _ (fun hc => hpp hc.symm)
      · rw [ballotsFor_saveProposal]
  | config_change s sender owner threshold msp price_keys hooks s' msgs hre hok ih =>
    obtain ⟨hc, hp, hb⟩ := execute_update_config_inv s sender owner threshold msp
      price_keys hooks _ _ hok
    refine TallyInv_congr g pid s _ (le_of_eq hc.symm) ?_ ?_ ih
    · unfold ContractState.getProposal
      rw [hp]
    · unfold ContractState.ballotsFor
      rw [hb]
  | propose_other env s sender funds data latest s' msgs hre hok ih =>
    obtain ⟨w, expires, hw, rfl⟩ := execute_propose_inv g env s sender funds data
      latest _ _ hok
    have hne : pid ≠ s.proposal_count + 1 := by
      have := ih.1
      omega
    refine TallyInv_congr g pid s _ (by simp [ContractState.saveProposal,
      ContractState.saveBallot]) ?_ ?_ ih
    · rw [getProposal_saveBallot, getProposal_saveProposal_ne _ _ _ _ hne]
      rfl
    · rw [ballotsFor_saveBallot_ne _ _ _ _ _ hne, ballotsFor_saveProposal]
      rfl


/-- C3: in every reachable state (proposal opened by Propose, then arbitrary
successful Vote/Close/UpdateConfig/Propose calls) the stored proposal's Yes
tally is at most its snapshotted total weight; and any further successful
Vote on the proposal never decreases the tally. -/
theorem claim_C3 (g : Group) (pid : Nat) (s : ContractState)
    (hre : reachable g pid s) :
    (∀ prop, s.getProposal pid = some prop → prop.votes.yes ≤ prop.total_weight) ∧
    (∀ env sender data s' msgs prop prop',
      execute_vote g env s sender pid data = Except.ok (s', msgs) →
      s.getProposal pid = some prop →
      s'.getProposal pid = some prop' →
      prop.votes.yes ≤ prop'.votes.yes) := by
  constructor
  · intro prop hp
    obtain ⟨h1, h2⟩ := reachable_TallyInv g pid s hre
    obtain ⟨hsum, hnd, hwts, htot⟩ := h2 prop hp
    rw [hsum, htot]
    refine sum_ballot_weights_le (g.members_at prop.start_height) (s.ballotsFor pid)
      hnd ?_
    intro e he
    exact hwts e he
  · intro env sender data s' msgs prop prop' hok hp hp'
    obtain ⟨prop₀, w, hp₀, hw, hbal, hcase⟩ := execute_vote_inv g env s sender pid
      data _ _ hok
    rw [hp] at hp₀
    injection hp₀ with hpe
    subst hpe
    rcases hcase with rfl | rfl <;>
    · rw [getProposal_saveProposal_self] at hp'
      injection hp' with hP
      rw [← hP]
      simp only [Proposal.update_status, Votes.add_vote]
      omega

/-- C3 (witness): the state right after member "u" opens proposal 1 in a
two-member roster of total weight 2 is reachable, and its stored tally 1 is
at most the snapshotted total 2. -/
theorem claim_C3_witness :
    (Proposal.mk "" "" 100 (.atHeight 110) .open (.absolute_count 2) 2
        ⟨1, 0, 0, 0⟩ "u" none).votes.yes
      ≤ (Proposal.mk "" "" 100 (.atHeight 110) .open (.absolute_count 2) 2
        ⟨1, 0, 0, 0⟩ "u" none).total_weight :=
  (claim_C3 ⟨fun _ => [("u", 1), ("v", 1)], [("u", 1), ("v", 1)]⟩ 1 _
    (reachable.propose ⟨⟨100, 0⟩, "c"⟩
      ⟨⟨"o", .absolute_count 2, .height 10, "g", none, ["h1"], ["a"]⟩, 0, [], []⟩
      "u" [] [("a", 5)] none
      (ContractState.mk
        ⟨"o", .absolute_count 2, .height 10, "g", none, ["h1"], ["a"]⟩ 1
        [(1, ⟨"", "", 100, .atHeight 110, .open, .absolute_count 2, 2,
          ⟨1, 0, 0, 0⟩, "u", none⟩)]
        [((1, "u"), ⟨1, [("a", 5)]⟩)]) []
      rfl rfl rfl rfl)).1
    (Proposal.mk "" "" 100 (.atHeight 110) .open (.absolute_count 2) 2
      ⟨1, 0, 0, 0⟩ "u" none) rfl


end OracleHub
